import Mathlib

/-!
Verification of the `mqrun` package (MaxQuant daemon) against its
natural-language specification.

The development shallowly embeds the Python sources:

* `src/mqrun/mqparams.py` — the parameter transform (`encode`, `decode`,
  `rec_update`, the six section writers/readers, `data_to_xml`, `xml_to_data`);
* `src/mqrun/mqdaemon.py` — the scheduler (`bucket_files`, `MQJob.__init__`,
  `MQJob._run_maxquant`, `MQJob._execute_task`);
* `src/mqrun/fscall.py` — the request protocol (`listen`, the status files
  written by `FSRequest.status` / `FSRequest.error` / `FSRequest.success`).

Python dictionaries are modelled as insertion-ordered association lists
(CPython 3.7+ semantics), Python values by the inductive types `PVal` and
`DValue`, XML element trees by `XElem`, and fallible code by
`Except String`.  Machine-level `float` values that occur in parameter
documents are modelled as exact rationals plus a separate NaN marker; the
places where this idealises IEEE arithmetic are flagged in doc comments.
-/

/-! ## Python string primitives

The Python `str` methods used by the sources, modelled over the character
list of a Lean `String`.  These mirror the CPython behaviour on the ASCII
strings the program manipulates. -/

/-- Model of the character class stripped by Python `str.strip()`
(ASCII whitespace). -/
def pyIsSpace (c : Char) : Bool :=
  c == ' ' || c == '\t' || c == '\n' || c == '\r' || c == '\x0b' || c == '\x0c'

/-- Model of Python `str.strip()`: drop leading and trailing whitespace. -/
def pyStrip (s : String) : String :=
  ⟨((s.data.dropWhile pyIsSpace).reverse.dropWhile pyIsSpace).reverse⟩

/-- ASCII lower-casing of one character, as Python `str.lower()` does for
the ASCII file-name suffixes handled by the daemon. -/
def charLower (c : Char) : Char :=
  if 'A' ≤ c && c ≤ 'Z' then Char.ofNat (c.toNat + 32) else c

/-- Model of Python `str.lower()` (ASCII range). -/
def pyLower (s : String) : String := ⟨s.data.map charLower⟩

/-- Auxiliary splitter for `pySplitChar`. -/
def splitOnCharAux (c : Char) : List Char → List Char → List String
  | [], acc => [⟨acc.reverse⟩]
  | x :: xs, acc =>
    if x == c then ⟨acc.reverse⟩ :: splitOnCharAux c xs []
    else splitOnCharAux c xs (x :: acc)

/-- Model of Python `str.split(c)` for a one-character separator; like the
Python original, the empty string yields `[""]`. -/
def pySplitChar (c : Char) (s : String) : List String := splitOnCharAux c s.data []

/-- Model of Python `str.replace(a, b)` for one-character arguments (the only
form the sources use, in `encode`). -/
def pyReplaceChar (a b : Char) (s : String) : String :=
  ⟨s.data.map (fun c => if c == a then b else c)⟩

/-- Digit-string to natural number; `none` on the empty list or a non-digit. -/
def digitsToNat : List Char → Option Nat
  | [] => none
  | cs => go cs 0
where
  go : List Char → Nat → Option Nat
    | [], acc => some acc
    | c :: cs, acc =>
      if c.isDigit then go cs (acc * 10 + (c.toNat - 48)) else none

/-- Model of Python `int(s)` on a string: optional surrounding whitespace,
optional sign, then a non-empty digit run.  (Underscore digit separators,
a CPython ≥ 3.6 extension never exercised by this code, are not modelled.) -/
def pyParseInt (s : String) : Option Int :=
  match (pyStrip s).data with
  | '-' :: cs => (digitsToNat cs).map (fun n => -(n : Int))
  | '+' :: cs => (digitsToNat cs).map (fun n => (n : Int))
  | cs => (digitsToNat cs).map (fun n => (n : Int))

/-! ## The Python value model -/

/-- Scalar Python values appearing in parameter documents and XML texts.
Finite floats are carried as exact rationals (every IEEE double is a dyadic
rational); `vNan` models `float("nan")`.  IEEE infinities never occur in the
modelled code paths and are left out. -/
inductive PVal where
  | vBool (b : Bool)
  | vInt (n : Int)
  | vFloat (q : ℚ)
  | vNan
  | vStr (s : String)

/-- Split a character list at the first `e`/`E` (exponent marker). -/
def splitExpChar : List Char → List Char × Option (List Char)
  | [] => ([], none)
  | c :: cs =>
    if c == 'e' || c == 'E' then ([], some cs)
    else
      let p := splitExpChar cs
      (c :: p.1, p.2)

/-- Split a character list at the first decimal point. -/
def splitDotChar : List Char → List Char × Option (List Char)
  | [] => ([], none)
  | c :: cs =>
    if c == '.' then ([], some cs)
    else
      let p := splitDotChar cs
      (c :: p.1, p.2)

/-- Model of Python `float(s)`: optional whitespace and sign, `nan`
(case-insensitive) or a decimal mantissa with optional fraction and optional
exponent.  The rational returned is the exact decimal value; Python rounds it
to the nearest double, an idealisation that is irrelevant at every input this
development evaluates.  IEEE infinities are outside the value model, so `inf`
inputs are rejected here although Python accepts them. -/
def pyParseFloat (s : String) : Option PVal :=
  let t := (pyStrip s).data
  let (sgn, cs) : ℚ × List Char :=
    match t with
    | '-' :: cs => (-1, cs)
    | '+' :: cs => (1, cs)
    | cs => (1, cs)
  if pyLower ⟨cs⟩ = "nan" then some .vNan
  else
    let (mant, expPart) := splitExpChar cs
    let (ip, fpOpt) := splitDotChar mant
    let fp := fpOpt.getD []
    if ip.isEmpty && fp.isEmpty then none
    else
      match digitsToNat (ip ++ fp), ip ++ fp with
      | some m, _ :: _ =>
        let base : ℚ := (m : ℚ) / 10 ^ fp.length
        match expPart with
        | none => some (.vFloat (sgn * base))
        | some ecs =>
          let (esgn, eds) : Int × List Char :=
            match ecs with
            | '-' :: eds => (-1, eds)
            | '+' :: eds => (1, eds)
            | eds => (1, eds)
          match digitsToNat eds with
          | some e => some (.vFloat (sgn * base * 10 ^ (esgn * (e : Int))))
          | none => none
      | _, _ => none

/-- Strip factors of ten: `strip10 fuel n = (m, t)` with `n = m * 10 ^ t` and
`10 ∤ m` whenever `fuel` bounds the number of trailing zeros (callers pass the
digit count of `n`). -/
def strip10 : Nat → Nat → Nat × Nat
  | 0, n => (n, 0)
  | fuel + 1, n =>
    if n % 10 == 0 && n != 0 then
      let p := strip10 fuel (n / 10)
      (p.1, p.2 + 1)
    else (n, 0)

/-- Model of Python `repr`/`str` on a nonzero finite float given as the exact
rational `q`.  Python prints the shortest decimal string that round-trips;
for every float evaluated in this development that string coincides with the
exact decimal expansion computed here.  Fixed-point notation is used for
decimal exponents in `[-4, 15]` and scientific notation (two-digit exponent)
outside it, as CPython does. -/
def pyFloatStr (q : ℚ) : String :=
  let sign := if q.num < 0 then "-" else ""
  let k := ((List.range (q.den + 1)).find? (fun k => 10 ^ k % q.den == 0)).getD 0
  let n := q.num.natAbs * (10 ^ k / q.den)
  let p := strip10 (toString n).length n
  let m := p.1
  let t := p.2
  let D := toString m
  let L := D.length
  let decExp : Int := (L : Int) - 1 + t - k
  if -4 ≤ decExp ∧ decExp ≤ 15 then
    let e2 : Int := (t : Int) - k
    if 0 ≤ e2 then sign ++ D ++ String.mk (List.replicate e2.toNat '0') ++ ".0"
    else
      let kk := (-e2).toNat
      if kk < L then sign ++ D.take (L - kk) ++ "." ++ D.drop (L - kk)
      else sign ++ "0." ++ String.mk (List.replicate (kk - L) '0') ++ D
  else
    let mant := if L = 1 then D else D.take 1 ++ "." ++ D.drop 1
    let esign := if decExp < 0 then "-" else "+"
    let eabs := decExp.natAbs
    let estr := if eabs < 10 then "0" ++ toString eabs else toString eabs
    sign ++ mant ++ "e" ++ esign ++ estr

/-- Embedding of `mqparams.encode` (src/mqrun/mqparams.py:173-187).
Booleans stringify lowercase; NaN prints `NaN`; exact zero prints `0`;
an integer-valued real with exact base-ten logarithm strictly between −4 and
15 is converted to an int before printing (`int(value) == value` holds for a
float exactly when its denominator is one); finally `e` is upcased.  The
source compares `math.log(abs(value), 10)` (a float computation) with −4 and
15; the embedding uses the exact comparison `10^-4 < |q| < 10^15`, written
with cleared denominators (`den < |num| * 10^4` and `|num| < 10^15 * den`),
which agrees with CPython at every value this development evaluates.  All
other values print verbatim via `str`. -/
def encode : PVal → String
  | .vBool b => if b then "true" else "false"
  | .vStr s => s
  | .vNan => "NaN"
  | .vInt n =>
    if n = 0 then "0"
    else pyReplaceChar 'e' 'E' (toString n)
  | .vFloat q =>
    if q.num = 0 then "0"
    else
      let s :=
        if q.den = 1 ∧ q.den < q.num.natAbs * 10 ^ 4 ∧ q.num.natAbs < 10 ^ 15 * q.den then
          toString q.num
        else pyFloatStr q
      pyReplaceChar 'e' 'E' s

/-- Embedding of `mqparams.decode` (src/mqrun/mqparams.py:190-210).
A `None` text decodes to the absent-value marker regardless of type;
otherwise the stripped text is converted according to the schema type string,
with failures (Python `ValueError`) modelled as `Except.error`. -/
def decode (string : Option String) (dtype : String) : Except String (Option PVal) :=
  match string with
  | none => .ok none
  | some str =>
    if dtype = "number" then
      match pyParseFloat (pyStrip str) with
      | some v => .ok (some v)
      | none => .error ("could not convert string to float: " ++ str)
    else if dtype = "string" then .ok (some (.vStr (pyStrip str)))
    else if dtype = "integer" then
      match pyParseInt (pyStrip str) with
      | some n => .ok (some (.vInt n))
      | none => .error ("invalid literal for int with base 10: " ++ str)
    else if dtype = "boolean" then
      let s := pyStrip str
      if s = "true" then .ok (some (.vBool true))
      else if s = "false" then .ok (some (.vBool false))
      else .error ("not a bool: " ++ s)
    else .error ("Could not parse " ++ str ++ " as type " ++ dtype ++ ", type not known")

/-- True exactly on the error branch of an `Except` value. -/
def exceptIsErr {ε α : Type} : Except ε α → Bool
  | .error _ => true
  | .ok _ => false

/-- C5: the scalar XML encoder meets the pinned wire contract:
`encode(True)="true"`, `encode(False)="false"`, `encode(0)="0"`,
`encode(1.0)="1"`, `encode(1.5)="1.5"` (the rational `mkRat 3 2`),
`encode(1e20)="1E+20"` with an uppercase exponent marker,
`encode(nan)="NaN"`, and strings verbatim. -/
theorem encode_pinned_contract :
    encode (.vBool true) = "true" ∧
    encode (.vBool false) = "false" ∧
    encode (.vInt 0) = "0" ∧
    encode (.vFloat 1) = "1" ∧
    encode (.vFloat (mkRat 3 2)) = "1.5" ∧
    encode (.vFloat (10 ^ 20)) = "1E+20" ∧
    encode .vNan = "NaN" ∧
    encode (.vStr "abc") = "abc" := by
  refine ⟨rfl, rfl, rfl, ?_, ?_, ?_, rfl, rfl⟩ <;> rfl

/-- C6: the scalar XML decoder strips whitespace before conversion
(`decode(" 3 ","integer") = 3`), returns the trimmed text for strings (the
empty string allowed), accepts exactly the stripped lowercase literals
`true`/`false` for booleans (`decode("True","boolean")` fails), and decodes
a null leaf to the absent-value marker for every type. -/
theorem decode_rules :
    decode (some " 3 ") "integer" = .ok (some (.vInt 3)) ∧
    (∀ s : String, decode (some s) "string" = .ok (some (.vStr (pyStrip s)))) ∧
    decode (some "") "string" = .ok (some (.vStr "")) ∧
    decode (some "true") "boolean" = .ok (some (.vBool true)) ∧
    decode (some "false") "boolean" = .ok (some (.vBool false)) ∧
    (∀ s : String, exceptIsErr (decode (some s) "boolean") = false ↔
      pyStrip s = "true" ∨ pyStrip s = "false") ∧
    exceptIsErr (decode (some "True") "boolean") = true ∧
    (∀ dtype : String, decode none dtype = .ok none) := by
  refine ⟨by rfl, fun s => rfl, by rfl, by rfl, by rfl, fun s => ?_, by rfl,
    fun dtype => rfl⟩
  show exceptIsErr (if pyStrip s = "true" then _ else if pyStrip s = "false" then _ else _)
      = false ↔ _
  by_cases h1 : pyStrip s = "true"
  · simp [h1, exceptIsErr]
  · by_cases h2 : pyStrip s = "false" <;> simp [h1, h2, exceptIsErr]

/-! ## Python dictionaries and document values

Parameter documents are nested Python values: dicts, lists, scalars and
`None`.  Dicts are modelled as insertion-ordered association lists, the
CPython 3.7+ semantics: assigning to an existing key keeps its position,
assigning to a fresh key appends. -/

/-- A nested Python value as found in a parameter document. -/
inductive DValue where
  | scalar (v : PVal)
  | null
  | arr (xs : List DValue)
  | dict (entries : List (String × DValue))

/-- A Python dict (insertion-ordered association list). -/
abbrev PyDict := List (String × DValue)

/-- Python `d.get(k)` / `d[k]`-style lookup. -/
def dget (d : PyDict) (k : String) : Option DValue :=
  (d.find? (fun p => p.1 == k)).map (fun p => p.2)

/-- Python `k in d`. -/
def dhas (d : PyDict) (k : String) : Bool := d.any (fun p => p.1 == k)

/-- Python `d[k] = v`: replace in place when the key exists, append
otherwise. -/
def dset (d : PyDict) (k : String) (v : DValue) : PyDict :=
  if d.any (fun p => p.1 == k) then
    d.map (fun p => if p.1 == k then (k, v) else p)
  else d ++ [(k, v)]

/-- Python `del d[k]`. -/
def ddel (d : PyDict) (k : String) : PyDict := d.filter (fun p => p.1 != k)

/-- CPython's default recursion limit, used as the fuel of `rec_update_fuel`.
The fuel only decreases while keys are processed, so it bounds the work, and
running out surfaces as an error — a fuelled run can never return a wrong
`ok`.  None of the runs evaluated in this development comes near the bound. -/
def RECURSION_LIMIT : Nat := 1000

/-- Fuelled body of `rec_update` (src/mqrun/mqparams.py:213-224):

    def rec_update(d, u):
        assert isinstance(d, collections.Mapping)
        for k, v in u.items():
            if isinstance(v, collections.Mapping):
                r = rec_update(d.get(k, {}), v)
                d[k] = r
            else:
                d[k] = u[k]

The Python function mutates `d` in place and falls off the end without a
`return`, so the recursive call evaluates to `None` and `d[k] = r` stores
`None` over the recursively merged sub-dictionary.  The embedding returns
the final value of `d` and reproduces that behaviour: the recursive result
is computed (so that a nested assertion failure still surfaces) and then
discarded in favour of `DValue.null`. -/
def rec_update_fuel : Nat → PyDict → PyDict → Except String PyDict
  | 0, _, _ => .error "RecursionError: maximum recursion depth exceeded"
  | _ + 1, d, [] => .ok d
  | fuel + 1, d, (k, v) :: rest =>
    match v with
    | .dict ve =>
      match (dget d k).getD (.dict []) with
      | .dict se =>
        match rec_update_fuel fuel se ve with
        | .error e => .error e
        | .ok _ => rec_update_fuel fuel (dset d k .null) rest
      | _ => .error "AssertionError: isinstance(d, collections.Mapping)"
    | _ => rec_update_fuel fuel (dset d k v) rest

/-- Embedding of `mqparams.rec_update`, the deep merge of the user mapping
`u` over the mapping `d`; returns the final value of `d`. -/
def rec_update (d u : PyDict) : Except String PyDict :=
  rec_update_fuel RECURSION_LIMIT d u

/-- C4 (code bug): `rec_update` never returns `d`, so for a key present in
both mappings with dict values on both sides — where the claim requires the
merge to recurse — the recursive result is `None` and the merged value is
lost: merging `{"a": {"y": 2}}` over `{"a": {"x": 1}}` yields
`{"a": None}` instead of `{"a": {"x": 1, "y": 2}}`; a key unique to the
user mapping with a dict value is stored as `None` as well. -/
theorem rec_update_loses_nested_merge :
    rec_update [("a", .dict [("x", .scalar (.vInt 1))])]
        [("a", .dict [("y", .scalar (.vInt 2))])] =
      .ok [("a", .null)] ∧
    rec_update [("b", .scalar (.vInt 7))]
        [("a", .dict [("y", .scalar (.vInt 2))])] =
      .ok [("b", .scalar (.vInt 7)), ("a", .null)] := by
  exact ⟨rfl, rfl⟩

/-! ## XML element trees

A model of `xml.etree.ElementTree` as used by the sources: an element has a
tag, attributes (insertion-ordered), optional text and a child list.
`find` searches direct children, as `Element.find` does for a plain tag. -/

/-- An XML element (`xml.etree.ElementTree.Element`).  The `ElementTree`
wrapper object is identified with its root element; `tree.getroot()` and
`tree.find(...)` in the sources both act on the root. -/
inductive XElem where
  | mk (tag : String) (attrib : List (String × String)) (text : Option String)
      (children : List XElem)

/-- Tag accessor. -/
def XElem.tag : XElem → String
  | .mk t _ _ _ => t

/-- Attribute-list accessor. -/
def XElem.attrib : XElem → List (String × String)
  | .mk _ a _ _ => a

/-- Text accessor (`None` when the text was never assigned). -/
def XElem.text : XElem → Option String
  | .mk _ _ x _ => x

/-- Child-list accessor. -/
def XElem.children : XElem → List XElem
  | .mk _ _ _ c => c

/-- Model of `Element.find(tag)`: the first direct child with the tag. -/
def XElem.find (e : XElem) (tg : String) : Option XElem :=
  e.children.find? (fun c => c.tag == tg)

/-- Model of `Element.append(child)`. -/
def XElem.append (e c : XElem) : XElem :=
  .mk e.tag e.attrib e.text (e.children ++ [c])

/-- Model of `Element.extend(children)`. -/
def XElem.extendChildren (e : XElem) (cs : List XElem) : XElem :=
  .mk e.tag e.attrib e.text (e.children ++ cs)

/-! ## The schema

`mqschema.json` is data of the repository that is not part of the sources
under review; following the design notes of the specification it is
re-modelled as tagged variants: every property carries a stable `id`
(used by the `ignore` sets), a type string, and, for arrays, the item type
and — for nested arrays — the inner item type. -/

/-- One property of an object schema: `id`, `type`, `items.type`,
`items.items.type` (the latter two only meaningful for arrays). -/
structure PropSchema where
  id : String
  type : String
  itemsType : Option String
  itemsItemsType : Option String

/-- An object schema: its `type` field and its ordered property map. -/
structure ObjSchema where
  type : String
  properties : List (String × PropSchema)

/-- Lookup of a property in a schema. -/
def findProp (props : List (String × PropSchema)) (k : String) : Option PropSchema :=
  (props.find? (fun p => p.1 == k)).map (fun p => p.2)

/-- Text of every child, failing (like `s.text.strip()` on a `None` text)
when one is absent. -/
def collectTexts : List XElem → Option (List String)
  | [] => some []
  | c :: cs =>
    match c.text with
    | some t => (collectTexts cs).map (fun ts => t :: ts)
    | none => none

/-- Embedding of `MQParamSet._simple_read_from_xml`
(src/mqrun/mqparams.py:414-455), the property loop.  Every schema key
(minus `defaults` and the ignored ids) is read from the direct child of
`base` with that tag.  For a list-of-string property the source only
collects the child texts when `el.text is not None` — the text of the
*parent* element, which the writer never assigns — and returns `[]`
otherwise; the embedding reproduces that test faithfully.  Nested string
lists are split on `;`, scalars go through `decode`. -/
def simple_read_props (base : XElem) (ignore : List String) :
    List (String × PropSchema) → PyDict → Except String PyDict
  | [], data => .ok data
  | (key, ps) :: rest, data =>
    if key = "defaults" then simple_read_props base ignore rest data
    else if ignore.contains ps.id then simple_read_props base ignore rest data
    else
      if ps.type = "array" then
        match ps.itemsType with
        | some "string" =>
          match base.find key with
          | none => .error ("AttributeError: find returned None for " ++ key)
          | some el =>
            match el.text with
            | some _ =>
              match collectTexts el.children with
              | some ts =>
                simple_read_props base ignore rest
                  (data ++ [(key, .arr (ts.map (fun t => .scalar (.vStr (pyStrip t)))))])
              | none => .error "AttributeError: a string item has no text"
            | none => simple_read_props base ignore rest (data ++ [(key, .arr [])])
        | some "array" =>
          if ps.itemsItemsType ≠ some "string" then
            .error ("can not decode element " ++ key)
          else
            match base.find key with
            | none => .error ("TypeError: find returned None for " ++ key)
            | some el =>
              let lists := el.children.map (fun s =>
                match s.text with
                | some t => DValue.arr ((pySplitChar ';' t).map (fun x => .scalar (.vStr x)))
                | none => DValue.arr [])
              simple_read_props base ignore rest (data ++ [(key, .arr lists)])
        | _ => .error "only list of list of string and list of string are supported"
      else
        match base.find key with
        | none => .error ("AttributeError: find returned None for " ++ key)
        | some el =>
          match decode el.text ps.type with
          | .error e => .error e
          | .ok v =>
            let dv := match v with
              | some pv => DValue.scalar pv
              | none => DValue.null
            simple_read_props base ignore rest (data ++ [(key, dv)])

/-- Embedding of `MQParamSet._simple_read_from_xml` including the
object-schema guard and the implicit `#defaults` ignore entry. -/
def simple_read_from_xml (base : XElem) (schema : ObjSchema) (ignore : List String) :
    Except String PyDict :=
  if schema.type ≠ "object" then .error "expected schema to contain an object"
  else simple_read_props base ("#defaults" :: ignore) schema.properties []

/-- Encoding of a document value as XML text, i.e. `encode` applied to a
scalar.  The Python `encode` would stringify a non-scalar via `repr`; that
only happens for documents that violate the schema, and is modelled as an
error. -/
def encodeDV : DValue → Except String String
  | .scalar v => .ok (encode v)
  | _ => .error "encode applied to a non-scalar value"

/-- Children of a nested string-list element: one `<string>` per inner list,
its text joined with `;` and left unset for an empty inner list
(src/mqrun/mqparams.py:476-484). -/
def nestedStringEls : List DValue → Except String (List XElem)
  | [] => .ok []
  | .arr ys :: rest => do
    let texts ← ys.mapM encodeDV
    let el : XElem := .mk "string" [] (if ys.length > 0 then
      some (String.intercalate ";" texts) else none) []
    let els ← nestedStringEls rest
    pure (el :: els)
  | _ :: _ => .error "AssertionError: isinstance(value_list, collections.Sequence)"

/-- Children of a string-list element: one `<string>` per value
(src/mqrun/mqparams.py:485-489). -/
def flatStringEls : List DValue → Except String (List XElem)
  | [] => .ok []
  | v :: rest => do
    let s ← encodeDV v
    let els ← flatStringEls rest
    pure (XElem.mk "string" [] (some s) [] :: els)

/-- One iteration of the data loop of `MQParamSet._simple_write_into_xml`
(src/mqrun/mqparams.py:463-495): the child element appended for one data
entry, `none` when the entry is skipped (`defaults` key or ignored id),
an error on an unknown key, a non-sequence where the schema says array, or
an unsupported item type.  Arrays become `<string>` children, scalars
become element text, `None` leaves the text unset. -/
def simple_write_child (props : List (String × PropSchema)) (ignore : List String)
    (k : String) (value : DValue) : Except String (Option XElem) :=
  if k = "defaults" then .ok none
  else
    match findProp props k with
    | none => .error ("Unknown key: " ++ k)
    | some ps =>
      if ignore.contains ps.id then .ok none
      else
        if ps.type = "array" then
          match value with
          | .arr xs =>
            match ps.itemsType with
            | some "array" => do
              let els ← nestedStringEls xs
              pure (some (.mk k [] none els))
            | some "string" => do
              let els ← flatStringEls xs
              pure (some (.mk k [] none els))
            | some other => .error ("list of " ++ other ++ " not supported")
            | none => .error "KeyError: items"
          | _ => .error "AssertionError: isinstance(value, collections.Sequence)"
        else
          match value with
          | .null => .ok (some (.mk k [] none []))
          | v => do
            let s ← encodeDV v
            pure (some (.mk k [] (some s) []))

/-- Embedding of `MQParamSet._simple_write_into_xml`
(src/mqrun/mqparams.py:457-495), the data loop: each entry's child element
(when any) is appended to `base` in data order. -/
def simple_write_entries (props : List (String × PropSchema)) (ignore : List String) :
    PyDict → XElem → Except String XElem
  | [], base => .ok base
  | (k, value) :: rest, base =>
    match simple_write_child props ignore k value with
    | .error e => .error e
    | .ok none => simple_write_entries props ignore rest base
    | .ok (some el) => simple_write_entries props ignore rest (base.append el)

/-- Embedding of `MQParamSet.write_into_xml` (src/mqrun/mqparams.py:405-412):
the object-schema guard, then the data loop on the root element.  A missing
data dictionary fails like Python `None.items()`. -/
def write_into_xml_generic (schema : ObjSchema) (data : Option PyDict)
    (ignore : List String) (tree : XElem) : Except String XElem :=
  if schema.type ≠ "object" then
    .error ("type " ++ schema.type ++ " not supported")
  else
    match data with
    | none => .error "AttributeError: NoneType object has no attribute items"
    | some d => simple_write_entries schema.properties ignore d tree

/-! ## Section parameter sets -/

/-- Embedding of the named tuple `mqparams.ExtraMQData`
(src/mqrun/mqparams.py:356-359).  The dict fields distinguish `None` from
an (empty) dict, the directory fields hold path strings or `None`. -/
structure ExtraMQData where
  file_paths : Option (List (String × String))
  fasta_paths : Option (List (String × String))
  output_dir : Option String
  tmp_dir : Option String

/-- Overlay for the dict fields of `ExtraMQData`: a new value replaces the
old one when it is neither `None` nor `{}`. -/
def updExtraDict (old new : Option (List (String × String))) :
    Option (List (String × String)) :=
  match new with
  | some l => if l.isEmpty then old else some l
  | none => old

/-- Overlay for the directory fields of `ExtraMQData`: a new value replaces
the old one when it is not `None` (a path never equals `{}`). -/
def updExtraDir (old new : Option String) : Option String :=
  match new with
  | some s => some s
  | none => old

/-- Embedding of the `extra_data` branch of `MQParamSet.update_data`
(src/mqrun/mqparams.py:381-387): fields of the incoming tuple overwrite the
stored ones unless they are `None` or `{}`. -/
def update_extra (old new : ExtraMQData) : ExtraMQData :=
  ⟨updExtraDict old.file_paths new.file_paths,
   updExtraDict old.fasta_paths new.fasta_paths,
   updExtraDir old.output_dir new.output_dir,
   updExtraDir old.tmp_dir new.tmp_dir⟩

/-- The `_extra_data` a fresh `MQParamSet` starts with:
`ExtraMQData({}, {}, None, None)`. -/
def initExtra : ExtraMQData := ⟨some [], some [], none, none⟩

/-- Embedding of the `user_data` branch of `MQParamSet.update_data`
(src/mqrun/mqparams.py:389-395): a `None` or empty user dict leaves the data
unchanged; otherwise the base is a deep copy of the named defaults preset
(when the user dict carries a `defaults` key) or `{}` (after asserting the
schema type is `object`), and `rec_update` overlays the user dict.
`defaults` is `none` for the sections constructed with a `None` defaults
table (`FastaParams`), where a preset lookup would be a Python `TypeError`. -/
def update_user_data (schemaType : String) (defaults : Option (List (String × PyDict)))
    (data : Option PyDict) (user : Option DValue) : Except String (Option PyDict) :=
  match user with
  | none => .ok data
  | some (.dict ud) =>
    if ud.isEmpty then .ok data
    else do
      let base ←
        if dhas ud "defaults" then
          match dget ud "defaults" with
          | some (.scalar (.vStr name)) =>
            match defaults with
            | none => Except.error "TypeError: NoneType object is not subscriptable"
            | some table =>
              match (table.find? (fun p => p.1 == name)).map (fun p => p.2) with
              | some preset => pure preset
              | none => Except.error ("KeyError: " ++ name)
          | _ => Except.error "KeyError: defaults preset lookup failed"
        else
          if schemaType = "object" then pure ([] : PyDict)
          else Except.error "AssertionError: schema type is not object"
      let r ← rec_update base ud
      pure (some r)
  | some _ => .error "TypeError: user_data is not a mapping"

/-- The per-section schemas `data_to_xml`/`xml_to_data` dispatch on:
`_schema.properties.MSMSParams`, the item schema of its `msmsParamsArray`,
`_schema.properties.globalParams`, the `params` schema of a `rawFiles` item,
`_schema.properties.fastaFiles` and `_schema.properties.topLevelParams`. -/
structure MQSchema where
  msms : ObjSchema
  msmsArrayItems : ObjSchema
  globalParams : ObjSchema
  rawItemParams : ObjSchema
  fastaFiles : ObjSchema
  topLevelParams : ObjSchema

/-- The defaults tables built from `defaults.json` at import time
(src/mqrun/mqparams.py:159-170), keyed by preset name. -/
structure MQDefaults where
  msms : List (String × PyDict)
  globalParams : List (String × PyDict)
  rawFileParams : List (String × PyDict)
  topLevelParams : List (String × PyDict)

/-- Data held by `MSMSParams`, `GlobalParams` or `TopLevelParams` after
construction followed by the `data_to_xml` update with the user section:
the constructor runs `update_data(user_data={'defaults': 'default'})`, then
the user section (when present and non-empty) rebuilds the data from its own
named preset, or from `{}` when it names none. -/
def section_data (schemaType : String) (defaults : List (String × PyDict))
    (userSection : Option DValue) : Except String (Option PyDict) := do
  let d0 ← update_user_data schemaType (some defaults) none
    (some (.dict [("defaults", .scalar (.vStr "default"))]))
  update_user_data schemaType (some defaults) d0 userSection

/-- One `msmsParams` element of the `msmsParamsArray`
(src/mqrun/mqparams.py:675-687): the three tolerance entries become child
elements carrying the encoded value, every other entry becomes an XML
attribute. -/
def msms_param_set_el : PyDict → XElem → Except String XElem
  | [], el => .ok el
  | (name, value) :: rest, el => do
    let s ← encodeDV value
    if name = "DeNovoTolerance" ∨ name = "DeisotopeTolerance" ∨
        name = "MatchTolerance" then
      msms_param_set_el rest (el.append (.mk name [] (some s) []))
    else
      msms_param_set_el rest (.mk el.tag (el.attrib ++ [(name, s)]) el.text el.children)

/-- The `msmsParams` elements of the `msmsParamsArray`, one per parameter
set; a non-dict entry fails the `isinstance` assertion of the source. -/
def msms_array_els : List DValue → Except String (List XElem)
  | [] => .ok []
  | .dict pd :: rest => do
    let el ← msms_param_set_el pd (.mk "msmsParams" [] none [])
    let els ← msms_array_els rest
    pure (el :: els)
  | _ :: _ => .error "AssertionError: isinstance(param_set, collections.Mapping)"

/-- Embedding of `MSMSParams.write_into_xml` (src/mqrun/mqparams.py:665-687):
the generic write with `#msmsParamsArray` ignored, then the
`msmsParamsArray` element built from `data['msmsParamsArray']`. -/
def msms_write (S : MQSchema) (data : Option PyDict) (tree : XElem) :
    Except String XElem := do
  let tree ← write_into_xml_generic S.msms data ["#msmsParamsArray"] tree
  match data.bind (fun d => dget d "msmsParamsArray") with
  | none => .error "KeyError: msmsParamsArray"
  | some (.arr sets) => do
    let els ← msms_array_els sets
    pure (tree.append (.mk "msmsParamsArray" [] none els))
  | some _ => .error "AssertionError: isinstance(val, collections.Sequence)"

/-- Embedding of `GlobalParams.write_into_xml`
(src/mqrun/mqparams.py:700-710): the generic write, then the four
hard-coded elements `maxQuantVersion` = 1.5.0.0, `name` = Session1,
`numThreads` = 1 and `sendEmail` = false appended to the root. -/
def global_write (S : MQSchema) (data : Option PyDict) (tree : XElem) :
    Except String XElem := do
  let tree ← write_into_xml_generic S.globalParams data [] tree
  let tree := tree.append (.mk "maxQuantVersion" [] (some "1.5.0.0") [])
  let tree := tree.append (.mk "name" [] (some "Session1") [])
  let tree := tree.append (.mk "numThreads" [] (some "1") [])
  pure (tree.append (.mk "sendEmail" [] (some "false") []))

/-- Embedding of `RawFileParams.update_data` (src/mqrun/mqparams.py:507-521):
each raw-file group whose `params` names a defaults preset is rebuilt from a
deep copy of that preset overlaid (via `rec_update`) with the user params. -/
def raw_update_user_data (presets : List (String × PyDict)) :
    List DValue → Except String (List PyDict)
  | [] => .ok []
  | item :: rest =>
    match item with
    | .dict ad => do
      let ad' ←
        match dget ad "params" with
        | none => Except.error "KeyError: params"
        | some (.dict pd) =>
          if dhas pd "defaults" then
            match dget pd "defaults" with
            | some (.scalar (.vStr name)) =>
              match (presets.find? (fun p => p.1 == name)).map (fun p => p.2) with
              | some preset => do
                let merged ← rec_update preset pd
                pure (dset ad "params" (.dict merged))
              | none => Except.error ("KeyError: " ++ name)
            | _ => Except.error "KeyError: defaults preset lookup failed"
          else pure ad
        | some _ => Except.error "TypeError: string indices must be integers"
      let rest' ← raw_update_user_data presets rest
      pure (ad' :: rest')
    | _ => .error "TypeError: raw file group is not a mapping"

/-- The file-path text emitted for one raw-file descriptor
(src/mqrun/mqparams.py:608-615): the logical `name` is looked up in the
raw-file path map and the mapped path is encoded when present; otherwise the
descriptor's explicit `path` entry is encoded; a descriptor that is in
neither place fails (Python `KeyError: path` — the failure the specification
calls `MissingPath`). -/
def raw_file_path_text (file_paths : List (String × String)) (file : PyDict) :
    Except String String :=
  match dget file "name" with
  | some (.scalar (.vStr name)) =>
    match (file_paths.find? (fun p => p.1 == name)).map (fun p => p.2) with
    | some path => .ok (encode (.vStr path))
    | none =>
      match dget file "path" with
      | some v => encodeDV v
      | none => .error "KeyError: path"
  | some _ => .error "TypeError: unhashable file name"
  | none => .error "KeyError: name"

/-- The four per-file elements of one raw-file descriptor
(src/mqrun/mqparams.py:602-624): an `experiments` entry (text only when the
descriptor has an `experiment`), a `filePaths` entry via
`raw_file_path_text`, a `fractions` entry (text only when the descriptor
has a `fraction`), and the `paramGroupIndices` entry carrying the group
index. -/
def raw_group_file_els (fp : List (String × String)) (i : Nat) :
    List DValue → Except String (List (XElem × XElem × XElem × XElem))
  | [] => .ok []
  | f :: rest =>
    match f with
    | .dict file => do
      let expText ←
        if dhas file "experiment" then do
          let s ← encodeDV ((dget file "experiment").getD .null)
          pure (some s)
        else pure none
      let pathText ← raw_file_path_text fp file
      let fracText ←
        if dhas file "fraction" then do
          let s ← encodeDV ((dget file "fraction").getD .null)
          pure (some s)
        else pure none
      let rest' ← raw_group_file_els fp i rest
      pure ((XElem.mk "string" [] expText [],
             XElem.mk "string" [] (some pathText) [],
             XElem.mk "short" [] fracText [],
             XElem.mk "int" [] (some (encode (.vInt i))) []) :: rest')
    | _ => .error "TypeError: file is not a mapping"

/-- The `parameterGroup` element written for one raw-file group
(src/mqrun/mqparams.py:626-631): the group parameters written by the
generic writer into a fresh element. -/
def write_param_group (S : MQSchema) (params : PyDict) : Except String XElem :=
  if S.rawItemParams.type ≠ "object" then
    .error "expected schema to contain an object"
  else
    simple_write_entries S.rawItemParams.properties [] params
      (.mk "parameterGroup" [] none [])

/-- The element lists accumulated over the raw-file groups
(src/mqrun/mqparams.py:599-631): experiments, file paths, fractions, group
indices (flattened over files) and one `parameterGroup` element per group
holding the group parameters written by the generic writer. -/
def raw_write_groups (S : MQSchema) (fp : List (String × String)) :
    Nat → List PyDict →
    Except String (List XElem × List XElem × List XElem × List XElem × List XElem)
  | _, [] => .ok ([], [], [], [], [])
  | i, g :: gs => do
    let files ←
      match dget g "files" with
      | some (.arr fs) => pure fs
      | some _ => Except.error "TypeError: files is not a list"
      | none => Except.error "KeyError: files"
    let params ←
      match dget g "params" with
      | some (.dict pd) => pure pd
      | some _ => Except.error "TypeError: params is not a mapping"
      | none => Except.error "KeyError: params"
    let fileEls ← raw_group_file_els fp i files
    let pg ← write_param_group S params
    let (es, ps, fr, ix, pgs) ← raw_write_groups S fp (i + 1) gs
    pure (fileEls.map (fun t => t.1) ++ es,
          fileEls.map (fun t => t.2.1) ++ ps,
          fileEls.map (fun t => t.2.2.1) ++ fr,
          fileEls.map (fun t => t.2.2.2) ++ ix,
          pg :: pgs)

/-- Embedding of `RawFileParams.write_into_xml`
(src/mqrun/mqparams.py:586-631): asserts the data is a list, then extends
the root with the five container elements filled from the groups. -/
def raw_write (S : MQSchema) (extra : ExtraMQData) (data : Option (List PyDict))
    (tree : XElem) : Except String XElem := do
  match data with
  | none => .error "AssertionError: isinstance(self.data, list)"
  | some groups => do
    let fp := extra.file_paths.getD []
    let (es, ps, fr, ix, pgs) ← raw_write_groups S fp 0 groups
    pure (tree.extendChildren
      [.mk "experiments" [] none es,
       .mk "filePaths" [] none ps,
       .mk "fractions" [] none fr,
       .mk "paramGroupIndices" [] none ix,
       .mk "parameterGroups" [] none pgs])

/-- Embedding of `OutputParams.write_into_xml`
(src/mqrun/mqparams.py:730-742): a `tempFolder` element whose text is set
only when a temporary directory is configured, then a
`fixedCombinedFolder` element likewise for the output directory. -/
def output_write (extra : ExtraMQData) (tree : XElem) : XElem :=
  let tree := tree.append
    (.mk "tempFolder" [] (extra.tmp_dir.map (fun s => encode (.vStr s))) [])
  tree.append
    (.mk "fixedCombinedFolder" [] (extra.output_dir.map (fun s => encode (.vStr s))) [])

/-- The names stored in a `fileNames`/`firstSearch` list of the fasta
section; anything other than a list of strings fails like the Python
iteration would. -/
def fastaNameList : Option DValue → Except String (List String)
  | some (.arr xs) =>
    xs.mapM (fun v =>
      match v with
      | .scalar (.vStr s) => .ok s
      | _ => .error "TypeError: unhashable fasta name")
  | some _ => .error "TypeError: fasta file list is not a list"
  | none => .error "KeyError: fasta file list"

/-- Embedding of `FastaParams.write_into_xml`
(src/mqrun/mqparams.py:829-840), the item loop: one `<string>` element per
name, holding `fasta_paths[name]` verbatim (a missing entry is a Python
`KeyError` — the fasta variant of `MissingPath`). -/
def fasta_path_els (fpaths : List (String × String)) :
    List String → Except String (List XElem)
  | [] => .ok []
  | n :: rest =>
    match (fpaths.find? (fun p => p.1 == n)).map (fun p => p.2) with
    | some path => do
      let els ← fasta_path_els fpaths rest
      pure (XElem.mk "string" [] (some path) [] :: els)
    | none => .error ("KeyError: " ++ n)

/-- Embedding of `FastaParams.write_into_xml`
(src/mqrun/mqparams.py:820-840): a `fastaFiles` element filled from
`fileNames` and a `fastaFilesFirstSearch` element filled from
`firstSearch`, both appended to the root. -/
def fasta_write (extra : ExtraMQData) (data : Option PyDict) (tree : XElem) :
    Except String XElem := do
  match data with
  | none => .error "TypeError: NoneType object is not subscriptable"
  | some d => do
    let names ← fastaNameList (dget d "fileNames")
    let els1 ← fasta_path_els (extra.fasta_paths.getD []) names
    let firstSearch ← fastaNameList (dget d "firstSearch")
    let els2 ← fasta_path_els (extra.fasta_paths.getD []) firstSearch
    let tree := tree.append (.mk "fastaFiles" [] none els1)
    pure (tree.append (.mk "fastaFilesFirstSearch" [] none els2))

/-- Embedding of `TopLevelParams.write_into_xml`
(src/mqrun/mqparams.py:772-780): every schema property except `defaults`
is written as an attribute of the root, reading `self.data[key]`. -/
def top_write_props (data : Option PyDict) :
    List (String × PropSchema) → List (String × String) →
    Except String (List (String × String))
  | [], acc => .ok acc
  | (key, _) :: rest, acc =>
    if key = "defaults" then top_write_props data rest acc
    else
      match data with
      | none => .error "TypeError: NoneType object is not subscriptable"
      | some d =>
        match dget d key with
        | none => .error ("KeyError: " ++ key)
        | some v => do
          let s ← encodeDV v
          let acc' :=
            if acc.any (fun p => p.1 == key) then
              acc.map (fun p => if p.1 == key then (key, s) else p)
            else acc ++ [(key, s)]
          top_write_props data rest acc'

/-- Embedding of `TopLevelParams.write_into_xml`: the attribute update on
the root element. -/
def top_write (S : MQSchema) (data : Option PyDict) (tree : XElem) :
    Except String XElem := do
  let attrib ← top_write_props data S.topLevelParams.properties tree.attrib
  pure (.mk tree.tag attrib tree.text tree.children)

/-- Embedding of `mqparams.data_to_xml` (src/mqrun/mqparams.py:227-278):
`None` path maps are replaced by `{}`, the six section writers run in order
(`MSMSParams`, `GlobalParams`, `RawFileParams`, `OutputParams`,
`FastaParams`, `TopLevelParams`) on a fresh `MaxQuantParams` root, each
constructed with its defaults table, updated with the shared extra data and
with its user section, and the resulting tree is returned.  The schema and
defaults tables — module data loaded from `mqschema.json`/`defaults.json`,
which are not part of the sources under review — are parameters. -/
def data_to_xml (S : MQSchema) (D : MQDefaults) (user_data : PyDict)
    (file_paths fasta_paths : Option (List (String × String)))
    (output_dir tmp_dir : Option String) : Except String XElem := do
  let fp := file_paths.getD []
  let fap := fasta_paths.getD []
  let extra := update_extra initExtra ⟨some fp, some fap, output_dir, tmp_dir⟩
  let root : XElem := .mk "MaxQuantParams" [] none []
  let msmsD ← section_data S.msms.type D.msms (dget user_data "MSMSParams")
  let root ← msms_write S msmsD root
  let globalD ← section_data S.globalParams.type D.globalParams
    (dget user_data "globalParams")
  let root ← global_write S globalD root
  let rawD ←
    match dget user_data "rawFiles" with
    | some (.arr items) => do
      let groups ← raw_update_user_data D.rawFileParams items
      pure (some groups)
    | some _ => Except.error "TypeError: raw files section is not a list"
    | none => pure none
  let root ← raw_write S extra rawD root
  let root := output_write extra root
  let fastaD ← update_user_data S.fastaFiles.type none none
    (dget user_data "fastaFiles")
  let root ← fasta_write extra fastaD root
  let topD ← section_data S.topLevelParams.type D.topLevelParams
    (dget user_data "topLevelParams")
  top_write S topD root

/-- C7: during XML emission of the `rawFiles` section, a descriptor whose
logical name is in the raw-file path map emits the mapped path; otherwise
its explicit `path` entry is emitted; and a descriptor with neither fails
(the `MissingPath` error, a `KeyError` in the Python source). -/
theorem raw_file_path_cases (fp : List (String × String)) (file : PyDict)
    (name : String)
    (hname : dget file "name" = some (.scalar (.vStr name))) :
    (∀ p, fp.find? (fun q => q.1 == name) = some p →
      raw_file_path_text fp file = .ok p.2) ∧
    (fp.find? (fun q => q.1 == name) = none →
      (∀ v, dget file "path" = some (.scalar (.vStr v)) →
        raw_file_path_text fp file = .ok v) ∧
      (dget file "path" = none →
        exceptIsErr (raw_file_path_text fp file) = true)) := by
  refine ⟨fun p hp => ?_, fun hn => ⟨fun v hv => ?_, fun hv => ?_⟩⟩
  · simp [raw_file_path_text, hname, hp, encode]
  · simp [raw_file_path_text, hname, hn, hv, encodeDV, encode]
  · simp [raw_file_path_text, hname, hn, hv, exceptIsErr]

/-- Witness for C7: all three branches of `raw_file_path_cases` evaluated at
concrete descriptors. -/
theorem raw_file_path_cases_witness :
    raw_file_path_text [("input1", "C:X")] [("name", .scalar (.vStr "input1"))] =
      .ok "C:X" ∧
    raw_file_path_text [] [("name", .scalar (.vStr "input1")),
      ("path", .scalar (.vStr "C:Y"))] = .ok "C:Y" ∧
    exceptIsErr (raw_file_path_text [] [("name", .scalar (.vStr "input1"))]) =
      true := by
  refine ⟨(raw_file_path_cases [("input1", "C:X")]
      [("name", .scalar (.vStr "input1"))] "input1" rfl).1 ("input1", "C:X") rfl,
    ((raw_file_path_cases [] [("name", .scalar (.vStr "input1")),
      ("path", .scalar (.vStr "C:Y"))] "input1" rfl).2 rfl).1 "C:Y" rfl,
    ((raw_file_path_cases [] [("name", .scalar (.vStr "input1"))]
      "input1" rfl).2 rfl).2 rfl⟩

/-! ## The hard-coded elements of every produced tree (C10) -/

/-- The tree has a direct child with the given tag and text. -/
def hasTopChild (t : XElem) (tg tx : String) : Bool :=
  t.children.any (fun c => c.tag == tg && c.text == some tx)

/-- `t'` extends `t` by appending children (tag/text/attrib unconstrained). -/
def extendsChildren (t t' : XElem) : Prop :=
  ∃ l, t'.children = t.children ++ l

/-- Appending a child extends the child list. -/
theorem extendsChildren_append (t : XElem) (c : XElem) :
    extendsChildren t (t.append c) := ⟨[c], rfl⟩

/-- Extending by a list of children extends the child list. -/
theorem extendsChildren_extend (t : XElem) (cs : List XElem) :
    extendsChildren t (t.extendChildren cs) := ⟨cs, rfl⟩

/-- Reflexivity of `extendsChildren`. -/
theorem extendsChildren_refl (t : XElem) : extendsChildren t t := ⟨[], (List.append_nil _).symm⟩

/-- Transitivity of `extendsChildren`. -/
theorem extendsChildren_trans {t₁ t₂ t₃ : XElem}
    (h₁ : extendsChildren t₁ t₂) (h₂ : extendsChildren t₂ t₃) :
    extendsChildren t₁ t₃ := by
  obtain ⟨l₁, e₁⟩ := h₁
  obtain ⟨l₂, e₂⟩ := h₂
  exact ⟨l₁ ++ l₂, by rw [e₂, e₁, List.append_assoc]⟩

/-- A present child stays present when children are appended. -/
theorem hasTopChild_mono {t t' : XElem} (h : extendsChildren t t')
    {tg tx : String} (hc : hasTopChild t tg tx = true) :
    hasTopChild t' tg tx = true := by
  obtain ⟨l, e⟩ := h
  unfold hasTopChild at hc ⊢
  rw [e, List.any_append, hc, Bool.true_or]

/-- The generic data loop only appends children. -/
theorem simple_write_entries_extends (props : List (String × PropSchema))
    (ignore : List String) :
    ∀ (entries : PyDict) (base b' : XElem),
      simple_write_entries props ignore entries base = .ok b' →
      extendsChildren base b' := by
  intro entries
  induction entries with
  | nil =>
    intro base b' h
    cases h
    exact extendsChildren_refl _
  | cons e rest ih =>
    intro base b' h
    obtain ⟨k, value⟩ := e
    rw [simple_write_entries] at h
    cases hc : simple_write_child props ignore k value with
    | error msg => rw [hc] at h; cases h
    | ok o =>
      rw [hc] at h
      cases o with
      | none => exact ih _ _ h
      | some el =>
        exact extendsChildren_trans (extendsChildren_append _ _) (ih _ _ h)

/-- Computation rule of `Except` bind on a success. -/
theorem except_bind_ok {ε α β : Type} (a : α) (f : α → Except ε β) :
    (Except.ok a >>= f) = f a := rfl

/-- Computation rule of `Except` bind on an error. -/
theorem except_bind_err {ε α β : Type} (e : ε) (f : α → Except ε β) :
    ((Except.error e : Except ε α) >>= f) = .error e := rfl

/-- The generic section write only appends children. -/
theorem write_into_xml_generic_extends (schema : ObjSchema) (data : Option PyDict)
    (ignore : List String) (t t' : XElem)
    (h : write_into_xml_generic schema data ignore t = .ok t') :
    extendsChildren t t' := by
  unfold write_into_xml_generic at h
  by_cases hs : schema.type ≠ "object"
  · rw [if_pos hs] at h; cases h
  · rw [if_neg hs] at h
    cases data with
    | none => cases h
    | some d => exact simple_write_entries_extends _ _ _ _ _ h

/-- The `MSMSParams` writer only appends children. -/
theorem msms_write_extends (S : MQSchema) (data : Option PyDict) (t t' : XElem)
    (h : msms_write S data t = .ok t') : extendsChildren t t' := by
  unfold msms_write at h
  cases hg : write_into_xml_generic S.msms data ["#msmsParamsArray"] t with
  | error e => rw [hg, except_bind_err] at h; cases h
  | ok g =>
    rw [hg, except_bind_ok] at h
    have hext : extendsChildren t g := write_into_xml_generic_extends _ _ _ _ _ hg
    cases hv : data.bind (fun d => dget d "msmsParamsArray") with
    | none => rw [hv] at h; dsimp only at h; cases h
    | some val =>
      rw [hv] at h
      cases val with
      | arr sets =>
        dsimp only at h
        cases hm : msms_array_els sets with
        | error e => rw [hm, except_bind_err] at h; cases h
        | ok els =>
          rw [hm, except_bind_ok] at h
          cases h
          exact extendsChildren_trans hext (extendsChildren_append _ _)
      | scalar v => dsimp only at h; cases h
      | null => dsimp only at h; cases h
      | dict d => dsimp only at h; cases h

/-- The `GlobalParams` writer appends children, among them the four
hard-coded elements. -/
theorem global_write_fixed (S : MQSchema) (data : Option PyDict) (t t' : XElem)
    (h : global_write S data t = .ok t') :
    extendsChildren t t' ∧
    hasTopChild t' "maxQuantVersion" "1.5.0.0" = true ∧
    hasTopChild t' "name" "Session1" = true ∧
    hasTopChild t' "numThreads" "1" = true ∧
    hasTopChild t' "sendEmail" "false" = true := by
  unfold global_write at h
  cases hg : write_into_xml_generic S.globalParams data [] t with
  | error e => rw [hg, except_bind_err] at h; cases h
  | ok g =>
    rw [hg, except_bind_ok] at h
    have hext : extendsChildren t g := write_into_xml_generic_extends _ _ _ _ _ hg
    cases h
    refine ⟨?_, ?_, ?_, ?_, ?_⟩
    · exact extendsChildren_trans hext (extendsChildren_trans (extendsChildren_append _ _)
        (extendsChildren_trans (extendsChildren_append _ _)
          (extendsChildren_trans (extendsChildren_append _ _)
            (extendsChildren_append _ _))))
    all_goals
      simp [hasTopChild, XElem.append, XElem.children, XElem.tag, XElem.text,
        List.any_append]

/-- The `RawFileParams` writer only appends children. -/
theorem raw_write_extends (S : MQSchema) (extra : ExtraMQData)
    (data : Option (List PyDict)) (t t' : XElem)
    (h : raw_write S extra data t = .ok t') : extendsChildren t t' := by
  unfold raw_write at h
  cases data with
  | none => cases h
  | some groups =>
    dsimp only at h
    cases hg : raw_write_groups S (extra.file_paths.getD []) 0 groups with
    | error e => rw [hg, except_bind_err] at h; cases h
    | ok r =>
      obtain ⟨es, ps, fr, ix, pgs⟩ := r
      rw [hg, except_bind_ok] at h
      cases h
      exact extendsChildren_extend _ _

/-- The `OutputParams` writer only appends children. -/
theorem output_write_extends (extra : ExtraMQData) (t : XElem) :
    extendsChildren t (output_write extra t) :=
  extendsChildren_trans (extendsChildren_append _ _) (extendsChildren_append _ _)

/-- The `FastaParams` writer only appends children. -/
theorem fasta_write_extends (extra : ExtraMQData) (data : Option PyDict)
    (t t' : XElem) (h : fasta_write extra data t = .ok t') :
    extendsChildren t t' := by
  unfold fasta_write at h
  cases data with
  | none => cases h
  | some d =>
    dsimp only at h
    cases hn : fastaNameList (dget d "fileNames") with
    | error e => rw [hn, except_bind_err] at h; cases h
    | ok names =>
      rw [hn, except_bind_ok] at h
      cases h1 : fasta_path_els (extra.fasta_paths.getD []) names with
      | error e => rw [h1, except_bind_err] at h; cases h
      | ok els1 =>
        rw [h1, except_bind_ok] at h
        cases hf : fastaNameList (dget d "firstSearch") with
        | error e => rw [hf, except_bind_err] at h; cases h
        | ok fs =>
          rw [hf, except_bind_ok] at h
          cases h2 : fasta_path_els (extra.fasta_paths.getD []) fs with
          | error e => rw [h2, except_bind_err] at h; cases h
          | ok els2 =>
            rw [h2, except_bind_ok] at h
            cases h
            exact extendsChildren_trans (extendsChildren_append _ _)
              (extendsChildren_append _ _)

/-- The `TopLevelParams` writer leaves the children untouched. -/
theorem top_write_children (S : MQSchema) (data : Option PyDict) (t t' : XElem)
    (h : top_write S data t = .ok t') : t'.children = t.children := by
  unfold top_write at h
  cases ha : top_write_props data S.topLevelParams.properties t.attrib with
  | error e => rw [ha, except_bind_err] at h; cases h
  | ok attrib =>
    rw [ha, except_bind_ok] at h
    cases h
    rfl

/-- C10: every XML tree produced by `data_to_xml` contains the hard-coded
elements `maxQuantVersion` = "1.5.0.0", `name` = "Session1",
`numThreads` = "1" and `sendEmail` = "false", for every schema, defaults
table, parameter document and path data. -/
theorem data_to_xml_fixed_elements (S : MQSchema) (D : MQDefaults)
    (ud : PyDict) (fp fap : Option (List (String × String)))
    (od td : Option String) (tree : XElem)
    (h : data_to_xml S D ud fp fap od td = .ok tree) :
    hasTopChild tree "maxQuantVersion" "1.5.0.0" = true ∧
    hasTopChild tree "name" "Session1" = true ∧
    hasTopChild tree "numThreads" "1" = true ∧
    hasTopChild tree "sendEmail" "false" = true := by
  unfold data_to_xml at h
  dsimp only at h
  cases h1 : section_data S.msms.type D.msms (dget ud "MSMSParams") with
  | error e => rw [h1, except_bind_err] at h; cases h
  | ok msmsD =>
  rw [h1, except_bind_ok] at h
  cases h2 : msms_write S msmsD (.mk "MaxQuantParams" [] none []) with
  | error e => rw [h2, except_bind_err] at h; cases h
  | ok r1 =>
  rw [h2, except_bind_ok] at h
  cases h3 : section_data S.globalParams.type D.globalParams
      (dget ud "globalParams") with
  | error e => rw [h3, except_bind_err] at h; cases h
  | ok globalD =>
  rw [h3, except_bind_ok] at h
  cases h4 : global_write S globalD r1 with
  | error e => rw [h4, except_bind_err] at h; cases h
  | ok r2 =>
  rw [h4, except_bind_ok] at h
  obtain ⟨-, hv1, hv2, hv3, hv4⟩ := global_write_fixed S globalD r1 r2 h4
  have step : ∀ r' : XElem, extendsChildren r2 r' →
      hasTopChild r' "maxQuantVersion" "1.5.0.0" = true ∧
      hasTopChild r' "name" "Session1" = true ∧
      hasTopChild r' "numThreads" "1" = true ∧
      hasTopChild r' "sendEmail" "false" = true := by
    intro r' hext
    exact ⟨hasTopChild_mono hext hv1, hasTopChild_mono hext hv2,
      hasTopChild_mono hext hv3, hasTopChild_mono hext hv4⟩
  cases hr : dget ud "rawFiles" with
  | none =>
    rw [hr] at h
    dsimp only at h
    exact go S D ud fp fap od td none r2 tree h step
  | some v =>
    rw [hr] at h
    cases v with
    | arr items =>
      dsimp only at h
      cases h5 : raw_update_user_data D.rawFileParams items with
      | error e => rw [h5, except_bind_err] at h; cases h
      | ok groups =>
        rw [h5] at h
        exact go S D ud fp fap od td (some groups) r2 tree h step
    | scalar v => dsimp only at h; cases h
    | null => dsimp only at h; cases h
    | dict d => dsimp only at h; cases h
where
  /-- The tail of the pipeline after the raw data is settled: raw, output,
  fasta and top-level writers preserve (and only extend) the children. -/
  go (S : MQSchema) (D : MQDefaults) (ud : PyDict)
      (fp fap : Option (List (String × String))) (od td : Option String)
      (rawD : Option (List PyDict)) (r2 tree : XElem)
      (h : (do
        let r3 ← raw_write S
          (update_extra initExtra ⟨some (fp.getD []), some (fap.getD []), od, td⟩)
          rawD r2
        let r4 := output_write
          (update_extra initExtra ⟨some (fp.getD []), some (fap.getD []), od, td⟩) r3
        let fastaD ← update_user_data S.fastaFiles.type none none
          (dget ud "fastaFiles")
        let r5 ← fasta_write
          (update_extra initExtra ⟨some (fp.getD []), some (fap.getD []), od, td⟩)
          fastaD r4
        let topD ← section_data S.topLevelParams.type D.topLevelParams
          (dget ud "topLevelParams")
        top_write S topD r5) = .ok tree)
      (step : ∀ r' : XElem, extendsChildren r2 r' →
        hasTopChild r' "maxQuantVersion" "1.5.0.0" = true ∧
        hasTopChild r' "name" "Session1" = true ∧
        hasTopChild r' "numThreads" "1" = true ∧
        hasTopChild r' "sendEmail" "false" = true) :
      hasTopChild tree "maxQuantVersion" "1.5.0.0" = true ∧
      hasTopChild tree "name" "Session1" = true ∧
      hasTopChild tree "numThreads" "1" = true ∧
      hasTopChild tree "sendEmail" "false" = true := by
    cases h6 : raw_write S
        (update_extra initExtra ⟨some (fp.getD []), some (fap.getD []), od, td⟩)
        rawD r2 with
    | error e => rw [h6, except_bind_err] at h; cases h
    | ok r3 =>
    rw [h6, except_bind_ok] at h
    dsimp only at h
    cases h7 : update_user_data S.fastaFiles.type none none (dget ud "fastaFiles") with
    | error e => rw [h7, except_bind_err] at h; cases h
    | ok fastaD =>
    rw [h7, except_bind_ok] at h
    cases h8 : fasta_write
        (update_extra initExtra ⟨some (fp.getD []), some (fap.getD []), od, td⟩)
        fastaD (output_write
          (update_extra initExtra ⟨some (fp.getD []), some (fap.getD []), od, td⟩) r3) with
    | error e => rw [h8, except_bind_err] at h; cases h
    | ok r5 =>
    rw [h8, except_bind_ok] at h
    cases h9 : section_data S.topLevelParams.type D.topLevelParams
        (dget ud "topLevelParams") with
    | error e => rw [h9, except_bind_err] at h; cases h
    | ok topD =>
    rw [h9, except_bind_ok] at h
    have e1 : extendsChildren r2 r3 := raw_write_extends _ _ _ _ _ h6
    have e2 : extendsChildren r2 (output_write
        (update_extra initExtra ⟨some (fp.getD []), some (fap.getD []), od, td⟩) r3) :=
      extendsChildren_trans e1 (output_write_extends _ _)
    have e3 : extendsChildren r2 r5 :=
      extendsChildren_trans e2 (fasta_write_extends _ _ _ _ h8)
    have e4 : extendsChildren r2 tree := by
      obtain ⟨l, hl⟩ := e3
      exact ⟨l, by rw [top_write_children S topD r5 tree h, hl]⟩
    exact step tree e4

/-! ## Reading parameters back (`xml_to_data`) -/

/-- Position of the last `.` in a character list, if any. -/
def lastDotPos (cs : List Char) : Option Nat :=
  let rec go : List Char → Nat → Option Nat → Option Nat
    | [], _, best => best
    | c :: rest, i, best => go rest (i + 1) (if c == '.' then some i else best)
  go cs 0 none

/-- Model of `pathlib` `PurePath.stem` applied to a path component list:
the final component without its suffix; a suffix needs a dot that is
neither the first nor past the last character of the name. -/
def pathStemOfName (name : String) : String :=
  match lastDotPos name.data with
  | some i => if 0 < i ∧ i < name.length then ⟨name.data.take i⟩ else name
  | none => name

/-- Model of `PurePath.suffix` on a name. -/
def pathSuffixOfName (name : String) : String :=
  match lastDotPos name.data with
  | some i => if 0 < i ∧ i < name.length then ⟨name.data.drop i⟩ else ""
  | none => ""

/-- The components of a Windows path string: split on both separators,
dropping empty pieces. -/
def pwpParts (s : String) : List String :=
  ((pySplitChar '\\' s).flatMap (pySplitChar '/')).filter (fun p => p ≠ "")

/-- Model of  `PureWindowsPath(s).name`. -/
def pwpName (s : String) : String := (pwpParts s).getLastD ""

/-- Model of `PureWindowsPath(s).stem`
(used in src/mqrun/mqparams.py:544 and 801-813). -/
def pwpStem (s : String) : String := pathStemOfName (pwpName s)

/-- Model of `str(PureWindowsPath(s))`: the parts joined with backslashes,
prefixed with a backslash when the path was rooted without a drive.  This
matches CPython for drive-rooted and relative paths without UNC prefixes,
which covers every path this development evaluates. -/
def pwpStr (s : String) : String :=
  let parts := pwpParts s
  let joined := String.intercalate "\\" parts
  match s.data with
  | '\\' :: _ => "\\" ++ joined
  | '/' :: _ => "\\" ++ joined
  | _ => joined

/-- Python `d[k] = v` on a string-valued dict. -/
def dsetS (d : List (String × String)) (k v : String) : List (String × String) :=
  if d.any (fun p => p.1 == k) then
    d.map (fun p => if p.1 == k then (k, v) else p)
  else d ++ [(k, v)]

/-- The `{'defaults': 'default'}` update every `MSMSParams`, `GlobalParams`
and `TopLevelParams` instance runs in its constructor. -/
def ctor_default_data (schemaType : String) (table : List (String × PyDict)) :
    Except String (Option PyDict) :=
  update_user_data schemaType (some table) none
    (some (.dict [("defaults", .scalar (.vStr "default"))]))

/-- Embedding of `MQParamSet.from_xml` (src/mqrun/mqparams.py:397-403):
the object guard, the generic read, then `update_data` on the result over
the constructor data. -/
def from_xml_generic (schema : ObjSchema) (defaults : Option (List (String × PyDict)))
    (ctorData : Option PyDict) (tree : XElem) (ignore : List String) :
    Except String (Option PyDict) := do
  if schema.type ≠ "object" then
    .error ("type " ++ schema.type ++ " not supported")
  else do
    let data ← simple_read_from_xml tree schema ignore
    update_user_data schema.type defaults ctorData (some (.dict data))

/-- One `msmsParams` entry read back (src/mqrun/mqparams.py:653-662):
the three tolerance names come from child elements decoded as numbers,
every other schema property from the XML attributes, kept as raw strings. -/
def msms_read_param_set (props : List (String × PropSchema)) (paramSet : XElem) :
    PyDict → Except String PyDict
  | data =>
    match props with
    | [] => .ok data
    | (name, _) :: rest =>
      if name = "DeNovoTolerance" ∨ name = "DeisotopeTolerance" ∨
          name = "MatchTolerance" then
        match paramSet.find name with
        | none => .error ("AttributeError: find returned None for " ++ name)
        | some elem =>
          match decode elem.text "number" with
          | .error e => .error e
          | .ok v =>
            let dv := match v with
              | some pv => DValue.scalar pv
              | none => DValue.null
            msms_read_param_set rest paramSet (data ++ [(name, dv)])
      else
        match (paramSet.attrib.find? (fun p => p.1 == name)).map (fun p => p.2) with
        | none => .error ("KeyError: " ++ name)
        | some v => msms_read_param_set rest paramSet (data ++ [(name, .scalar (.vStr v))])

/-- Embedding of `MSMSParams.from_xml` (src/mqrun/mqparams.py:644-663):
the generic read with `#msmsParamsArray` ignored, then the parameter sets
of the `msmsParamsArray` element, stored under that key. -/
def msms_from_xml (S : MQSchema) (D : MQDefaults) (tree : XElem) :
    Except String (Option PyDict) := do
  let d0 ← ctor_default_data S.msms.type D.msms
  let d1 ← from_xml_generic S.msms (some D.msms) d0 tree ["#msmsParamsArray"]
  match tree.find "msmsParamsArray" with
  | none => .error "TypeError: NoneType object is not iterable"
  | some arrayRoot => do
    let sets ← arrayRoot.children.mapM
      (fun ps => msms_read_param_set S.msmsArrayItems.properties ps [])
    match d1 with
    | none => .error "TypeError: NoneType object does not support item assignment"
    | some d => pure (some (dset d "msmsParamsArray" (.arr (sets.map DValue.dict))))

/-- Embedding of `GlobalParams` reading, which inherits the generic
`from_xml` unchanged. -/
def global_from_xml (S : MQSchema) (D : MQDefaults) (tree : XElem) :
    Except String (Option PyDict) := do
  let d0 ← ctor_default_data S.globalParams.type D.globalParams
  from_xml_generic S.globalParams (some D.globalParams) d0 tree []

/-- Embedding of the attribute loop of `TopLevelParams.from_xml`
(src/mqrun/mqparams.py:755-770). -/
def top_read_props (attrib : List (String × String)) :
    List (String × PropSchema) → PyDict → Except String PyDict
  | [], data => .ok data
  | (key, ps) :: rest, data =>
    if key = "defaults" then top_read_props attrib rest data
    else
      match (attrib.find? (fun p => p.1 == key)).map (fun p => p.2) with
      | none => .error ("KeyError: " ++ key)
      | some s =>
        match decode (some s) ps.type with
        | .error e => .error e
        | .ok v =>
          let dv := match v with
            | some pv => DValue.scalar pv
            | none => DValue.null
          top_read_props attrib rest (data ++ [(key, dv)])

/-- Embedding of `TopLevelParams.from_xml`: read the root attributes per
schema, then `update_data` over the constructor data. -/
def top_from_xml (S : MQSchema) (D : MQDefaults) (tree : XElem) :
    Except String (Option PyDict) := do
  let d0 ← ctor_default_data S.topLevelParams.type D.topLevelParams
  let data ← top_read_props tree.attrib S.topLevelParams.properties []
  update_user_data S.topLevelParams.type (some D.topLevelParams) d0
    (some (.dict data))

/-- The string stored by a `decode(..., "string")` result. -/
def decodedString : Option PVal → Option String
  | some (.vStr s) => some s
  | _ => none

/-- Embedding of `OutputParams.from_xml` (src/mqrun/mqparams.py:722-728):
the texts of `tempFolder` and `fixedCombinedFolder` decoded as strings;
returns `(output_dir, tmp_dir)`. -/
def output_from_xml (tree : XElem) : Except String (Option String × Option String) := do
  let tmpv ←
    match tree.find "tempFolder" with
    | none => Except.error "AttributeError: find returned None for tempFolder"
    | some el => decode el.text "string"
  let outv ←
    match tree.find "fixedCombinedFolder" with
    | none => Except.error "AttributeError: find returned None for fixedCombinedFolder"
    | some el => decode el.text "string"
  pure (decodedString outv, decodedString tmpv)

/-- Zip of the four per-file element lists; like Python `zip`, stops at the
shortest list. -/
def zip4 {α β γ δ : Type} : List α → List β → List γ → List δ → List (α × β × γ × δ)
  | a :: as_, b :: bs, c :: cs, d :: ds => (a, b, c, d) :: zip4 as_ bs cs ds
  | _, _, _, _ => []

/-- The per-file loop of `RawFileParams.from_xml`
(src/mqrun/mqparams.py:534-550): a file dict gains `experiment`, `path` and
`name`, and `fraction` entries when the corresponding texts are truthy
after stripping, and always a `grp_ind` entry; the path dict collects
`name ↦ path`. -/
def raw_read_files : List (XElem × XElem × XElem × XElem) → List PyDict →
    List (String × String) → Except String (List PyDict × List (String × String))
  | [], files, paths => .ok (files, paths)
  | (exp, path, frac, grp) :: rest, files, paths => do
    let f0 : PyDict := []
    let f1 :=
      match exp.text with
      | some t =>
        if pyStrip t ≠ "" then
          f0 ++ [("experiment", DValue.scalar (.vStr (pyStrip t)))]
        else f0
      | none => f0
    let fp :=
      match path.text with
      | some t =>
        if pyStrip t ≠ "" then
          let p := pyStrip t
          let name := pwpStem p
          (f1 ++ [("path", DValue.scalar (.vStr p)),
                  ("name", DValue.scalar (.vStr name))],
           dsetS paths name p)
        else (f1, paths)
      | none => (f1, paths)
    let f2 := fp.1
    let f3 ←
      match frac.text with
      | some t =>
        if pyStrip t ≠ "" then
          match pyParseInt (pyStrip t) with
          | some n => pure (f2 ++ [("fraction", .scalar (.vInt n))])
          | none => Except.error ("invalid literal for int with base 10: " ++ t)
        else pure f2
      | none => pure f2
    let f4 ←
      match grp.text with
      | none => Except.error "AttributeError: NoneType object has no attribute strip"
      | some t =>
        match pyParseInt (pyStrip t) with
        | some g => pure (f3 ++ [("grp_ind", .scalar (.vInt g))])
        | none => Except.error ("invalid literal for int with base 10: " ++ t)
    raw_read_files rest (files ++ [f4]) fp.2

/-- The `grp_ind` sort key of a file dict; every dict built by
`raw_read_files` carries the key, so the default is never consulted. -/
def grpKey (f : PyDict) : Int :=
  match dget f "grp_ind" with
  | some (.scalar (.vInt g)) => g
  | _ => 0

/-- Insert into a sorted list, after entries with the same key — the
placement that makes the sort stable. -/
def insertSorted {α : Type} (keyOf : α → Int) (x : α) : List α → List α
  | [] => [x]
  | y :: ys =>
    if keyOf y ≤ keyOf x then y :: insertSorted keyOf x ys else x :: y :: ys

/-- Model of Python `list.sort(key=...)`: a stable sort by an integer key
(Python's Timsort is stable; any stable sort has the same result). -/
def pySortByKey {α : Type} (keyOf : α → Int) (l : List α) : List α :=
  l.foldl (fun acc x => insertSorted keyOf x acc) []

/-- Model of `itertools.groupby` with an integer key on a list: maximal
runs of consecutive elements with equal keys. -/
def groupConsec {α : Type} (keyOf : α → Int) : List α → List (Int × List α)
  | [] => []
  | x :: xs =>
    match groupConsec keyOf xs with
    | [] => [(keyOf x, [x])]
    | (k, g) :: rest =>
      if keyOf x = k then (keyOf x, x :: g) :: rest
      else (keyOf x, [x]) :: (k, g) :: rest

/-- The per-group loop of `RawFileParams.from_xml`
(src/mqrun/mqparams.py:563-584): for each group of files the
`parameterGroups` child at the group index is read with the params schema;
the files lose their `path` and `grp_ind` entries. -/
def raw_read_groups (S : MQSchema) (groupsEl : XElem) :
    List (Int × List PyDict) → Except String (List PyDict)
  | [] => .ok []
  | (g, fs) :: rest => do
    let pgXml ←
      if g < 0 then
        Except.error "IndexError: negative parameter group index"
      else
        match groupsEl.children.get? g.toNat with
        | some el => pure el
        | none => Except.error "IndexError: list index out of range"
    let params ← simple_read_from_xml pgXml S.rawItemParams []
    let files := fs.map (fun f => ddel (ddel f "path") "grp_ind")
    let rest' ← raw_read_groups S groupsEl rest
    pure (([("params", DValue.dict params),
            ("files", DValue.arr (files.map DValue.dict))] : PyDict) :: rest')

/-- Embedding of `RawFileParams.from_xml` (src/mqrun/mqparams.py:523-584):
find the five container elements, read the per-file lists, collect the
path dict, bucket files by group index (stable sort plus consecutive
grouping, as `list.sort` plus `itertools.groupby` do), read each group's
parameters and run the raw-file `update_data`.  Returns the group list and
the recovered path dict. -/
def raw_from_xml (S : MQSchema) (D : MQDefaults) (tree : XElem) :
    Except String (List PyDict × List (String × String)) := do
  let experiments ←
    match tree.find "experiments" with
    | some el => pure el
    | none => Except.error "TypeError: zip argument is None"
  let filePaths ←
    match tree.find "filePaths" with
    | some el => pure el
    | none => Except.error "TypeError: zip argument is None"
  let fractions ←
    match tree.find "fractions" with
    | some el => pure el
    | none => Except.error "TypeError: zip argument is None"
  let paramGroupInds ←
    match tree.find "paramGroupIndices" with
    | some el => pure el
    | none => Except.error "TypeError: zip argument is None"
  let paramGroups ←
    match tree.find "parameterGroups" with
    | some el => pure el
    | none => Except.error "TypeError: parameterGroups is None"
  let zipped := zip4 experiments.children filePaths.children
    fractions.children paramGroupInds.children
  let (files, pathsDict) ← raw_read_files zipped [] []
  let sorted := pySortByKey grpKey files
  let grouped := groupConsec grpKey sorted
  let data ← raw_read_groups S paramGroups grouped
  let data' ← raw_update_user_data D.rawFileParams (data.map DValue.dict)
  pure (data', pathsDict)

/-- The first loop of `FastaParams.from_xml` (src/mqrun/mqparams.py:798-802):
`fasta_files[path.stem] = str(path)` for every `<string>` child. -/
def fasta_read_files : List XElem → List (String × String) →
    Except String (List (String × String))
  | [], acc => .ok acc
  | c :: cs, acc =>
    match c.text with
    | none => .error "TypeError: argument should be a str or an os.PathLike object"
    | some t => fasta_read_files cs (dsetS acc (pwpStem t) (pwpStr t))

/-- The second loop of `FastaParams.from_xml`
(src/mqrun/mqparams.py:806-813): a first-search entry whose stem is already
mapped to a different path fails; otherwise the dict is updated and the
stem recorded. -/
def fasta_first_search : List XElem → List (String × String) → List String →
    Except String (List (String × String) × List String)
  | [], ff, acc => .ok (ff, acc)
  | c :: cs, ff, acc =>
    match c.text with
    | none => .error "TypeError: argument should be a str or an os.PathLike object"
    | some t =>
      let stem := pwpStem t
      let p := pwpStr t
      match (ff.find? (fun q => q.1 == stem)).map (fun q => q.2) with
      | some q =>
        if q ≠ p then .error "File name for fasta file not unique"
        else fasta_first_search cs (dsetS ff stem p) (acc ++ [stem])
      | none => fasta_first_search cs (dsetS ff stem p) (acc ++ [stem])

/-- Embedding of `FastaParams.from_xml` (src/mqrun/mqparams.py:792-818):
collect the fasta path dict, build `fileNames` (the dict keys before the
first-search loop) and `firstSearch`, and run the generic `update_data`.
Returns the section data and the fasta path dict. -/
def fasta_from_xml (S : MQSchema) (tree : XElem) :
    Except String (Option PyDict × List (String × String)) := do
  let el1 ←
    match tree.find "fastaFiles" with
    | some el => pure el
    | none => Except.error "TypeError: NoneType object is not iterable"
  let ff ← fasta_read_files el1.children []
  let fileNames := ff.map (fun p => p.1)
  let el2 ←
    match tree.find "fastaFilesFirstSearch" with
    | some el => pure el
    | none => Except.error "TypeError: NoneType object is not iterable"
  let (ff2, firstSearch) ← fasta_first_search el2.children ff []
  let data : PyDict :=
    [("fileNames", .arr (fileNames.map (fun s => .scalar (.vStr s)))),
     ("firstSearch", .arr (firstSearch.map (fun s => .scalar (.vStr s))))]
  let d ← update_user_data S.fastaFiles.type none none (some (.dict data))
  pure (d, ff2)

/-- An optional section dict as the stored document value (`reader.data`
may legitimately be `None`, which Python stores as `None`). -/
def sectionDV : Option PyDict → DValue
  | some d => .dict d
  | none => .null

/-- Embedding of `mqparams.xml_to_data` (src/mqrun/mqparams.py:281-328):
run the six readers in writer order, store each keyed section in the
result document, and fold the extra data exactly as the
`reader.update_data(extra_data=extra); extra = reader.extra_data` loop
does: the accumulated tuple overlays each reader's own extra data. -/
def xml_to_data (S : MQSchema) (D : MQDefaults) (tree : XElem) :
    Except String (PyDict × ExtraMQData) := do
  let extra0 : ExtraMQData := ⟨none, none, none, none⟩
  let msmsD ← msms_from_xml S D tree
  let extra1 := update_extra initExtra extra0
  let globalD ← global_from_xml S D tree
  let extra2 := update_extra initExtra extra1
  let (rawD, pathsDict) ← raw_from_xml S D tree
  let extra3 := update_extra (update_extra initExtra ⟨some pathsDict, none, none, none⟩) extra2
  let (outv, tmpv) ← output_from_xml tree
  let extra4 := update_extra (update_extra initExtra ⟨none, none, outv, tmpv⟩) extra3
  let (fastaD, fastaPaths) ← fasta_from_xml S tree
  let extra5 := update_extra (update_extra initExtra ⟨none, some fastaPaths, none, none⟩) extra4
  let topD ← top_from_xml S D tree
  let extra6 := update_extra initExtra extra5
  let data : PyDict :=
    [("MSMSParams", sectionDV msmsD),
     ("globalParams", sectionDV globalD),
     ("rawFiles", .arr (rawD.map DValue.dict)),
     ("fastaFiles", sectionDV fastaD),
     ("topLevelParams", sectionDV topD)]
  pure (data, extra6)

/-! ## A concrete schema instance and the round-trip counterexample (C1)

Modelled from the spec: `mqschema.json` and `defaults.json` are data files
of the repository that are not among the sources under review.  The
instance below follows the specification's data model: four object
subsections plus `rawFiles`; subsection fields are scalars, lists of
strings or lists of lists of strings; each section's defaults table has a
preset named `default` (its `globalParams` preset carries the list-valued
field `restrictMods`, standing for the list-of-string parameters that the
real schema declares and the module documentation exercises with
`variableModifications`). -/

/-- Modelled from the spec: a small but complete schema instance of the
shape described in the data model. -/
def testSchema : MQSchema :=
  ⟨⟨"object",
    [("msmsTol", ⟨"#msmsTol", "integer", none, none⟩),
     ("msmsParamsArray", ⟨"#msmsParamsArray", "array", some "object", none⟩)]⟩,
   ⟨"object", []⟩,
   ⟨"object",
    [("restrictMods", ⟨"#restrictMods", "array", some "string", none⟩)]⟩,
   ⟨"object", []⟩,
   ⟨"object",
    [("fileNames", ⟨"#fileNames", "array", some "string", none⟩),
     ("firstSearch", ⟨"#firstSearch", "array", some "string", none⟩)]⟩,
   ⟨"object",
    [("pipelineName", ⟨"#pipelineName", "string", none, none⟩)]⟩⟩

/-- Modelled from the spec: defaults tables with one preset `default` per
section. -/
def testDefaults : MQDefaults :=
  ⟨[("default", [("msmsTol", .scalar (.vInt 5)), ("msmsParamsArray", .arr [])])],
   [("default", [("restrictMods", .arr [.scalar (.vStr "Oxidation (M)")])])],
   [("default", [])],
   [("default", [("pipelineName", .scalar (.vStr "Session"))])]⟩

/-- The round-trip document: one raw-file group naming `input1`, empty
fasta lists, and a `globalParams` section that names the `default` preset
and explicitly sets the list-valued field `restrictMods`. -/
def testDoc : PyDict :=
  [("rawFiles", .arr [.dict
      [("files", .arr [.dict [("name", .scalar (.vStr "input1"))]]),
       ("params", .dict [])]]),
   ("fastaFiles", .dict [("fileNames", .arr []), ("firstSearch", .arr [])]),
   ("globalParams", .dict
      [("defaults", .scalar (.vStr "default")),
       ("restrictMods", .arr [.scalar (.vStr "Oxidation (M)")])])]

/-- The raw-file path map of the round-trip run. -/
def testPaths : List (String × String) := [("input1", "C:\\data\\input1.raw")]

/-- The tree produced by `data_to_xml` on the test document (the fallback
element is never used: the conversion succeeds, as the witness below
proves by evaluation). -/
def testTree : XElem :=
  match data_to_xml testSchema testDefaults testDoc (some testPaths) (some [])
      (some "C:\\out") (some "C:\\tmp") with
  | .ok t => t
  | .error _ => .mk "" [] none []

/-- C1 (code bug): the round trip is not the identity up to default overlay.
The document `testDoc` explicitly sets
`globalParams.restrictMods = ["Oxidation (M)"]` (so any defaults overlay of
`testDoc` keeps that value), `data_to_xml` succeeds and emits the list, but
`xml_to_data` returns the section with `restrictMods = []`: the reader of a
list-of-string property collects the child texts only when the text of the
*parent* element `is not None` (src/mqrun/mqparams.py:433), and the writer
never assigns that text, so every written string list reads back empty.
The recovered path data does contain the path entry the document used. -/
theorem round_trip_loses_string_lists :
    data_to_xml testSchema testDefaults testDoc (some testPaths) (some [])
        (some "C:\\out") (some "C:\\tmp") = .ok testTree ∧
    (xml_to_data testSchema testDefaults testTree).map
        (fun r => dget r.1 "globalParams") =
      .ok (some (.dict [("restrictMods", .arr [])])) ∧
    dget testDoc "globalParams" =
      some (.dict [("defaults", .scalar (.vStr "default")),
                   ("restrictMods", .arr [.scalar (.vStr "Oxidation (M)")])]) ∧
    (xml_to_data testSchema testDefaults testTree).map
        (fun r => r.2.file_paths) = .ok (some testPaths) := by
  refine ⟨?_, ?_, ?_, ?_⟩ <;> rfl

/-- Witness for C10: the fixed elements, obtained through
`data_to_xml_fixed_elements` at the concrete test run. -/
theorem data_to_xml_fixed_elements_witness :
    hasTopChild testTree "maxQuantVersion" "1.5.0.0" = true ∧
    hasTopChild testTree "name" "Session1" = true ∧
    hasTopChild testTree "numThreads" "1" = true ∧
    hasTopChild testTree "sendEmail" "false" = true :=
  data_to_xml_fixed_elements testSchema testDefaults testDoc (some testPaths)
    (some []) (some "C:\\out") (some "C:\\tmp") testTree (by rfl)

/-! ## The scheduler (`mqdaemon.MQJob`) -/

/-- A write to one of the per-request protocol files, as performed by
`fscall.FSRequest` (src/mqrun/fscall.py:126-148): `STATUS` is overwritten
with the current label, `FAILED` and `SUCCESS` are terminal files with a
message body. -/
inductive TaskEvent where
  | statusWrite (s : String)
  | failedWrite (msg : String)
  | successWrite (msg : Option String)
  deriving Repr, DecidableEq

/-- Embedding of `FSRequest.status` (src/mqrun/fscall.py:138-140). -/
def task_status (s : String) : List TaskEvent := [.statusWrite s]

/-- Embedding of `FSRequest.error` (src/mqrun/fscall.py:132-136): the
`FAILED` file, then the `FAILED` status label. -/
def task_error (msg : String) : List TaskEvent :=
  [.failedWrite msg, .statusWrite "FAILED"]

/-- Embedding of `FSRequest.success` (src/mqrun/fscall.py:126-130): the
`SUCCESS` file, then the `SUCCESS` status label. -/
def task_success (msg : Option String) : List TaskEvent :=
  [.successWrite msg, .statusWrite "SUCCESS"]

/-- A float-valued timeout as the Python code stores it: `None`, a finite
value, or `float("inf")`. -/
inductive PyTimeout where
  | none
  | finite (q : ℚ)
  | inf
  deriving Repr, DecidableEq

/-- The state `MQJob.__init__` leaves behind
(src/mqrun/mqdaemon.py:203-213).  The source assigns

    self.mq_timeout = mq_timeout
    self.mq_timeout = float('inf')

so whatever engine timeout was configured is overwritten with infinity. -/
structure MQJobState where
  sem_timeout : ℚ
  mq_timeout : PyTimeout

/-- Embedding of `MQJob.__init__`: the two consecutive assignments to
`self.mq_timeout`. -/
def MQJob_init (sem_timeout : ℚ) (mq_timeout : PyTimeout) : MQJobState :=
  let s1 : MQJobState := ⟨sem_timeout, mq_timeout⟩
  ⟨s1.sem_timeout, .inf⟩

/-- The deadline test of the polling loop in `MQJob._run_maxquant`
(src/mqrun/mqdaemon.py:249-250):
`self.mq_timeout is not None and time.time() - start > self.mq_timeout`.
A finite elapsed time never exceeds `float("inf")`. -/
def mqTimeoutExceeded (mq_timeout : PyTimeout) (elapsed : ℚ) : Bool :=
  match mq_timeout with
  | .none => false
  | .finite t => elapsed > t
  | .inf => false

/-- The result of `MQJob._run_maxquant` once the engine child has exited
with return code `rc` (src/mqrun/mqdaemon.py:269-273): a nonzero code
raises `RuntimeError("MaxQuant error " + str(ret))`, zero returns
normally. -/
def run_maxquant_outcome (rc : Int) : Except String Unit :=
  if rc ≠ 0 then .error ("MaxQuant error " ++ toString rc) else .ok ()

/-- Embedding of `MQJob._execute_task` (src/mqrun/mqdaemon.py:282-321) as
the sequence of protocol-file writes it performs, given the outcomes of
the two semaphore acquisitions, of `_process_params` and of
`_run_maxquant`.  After a successful `_run_maxquant` the method returns
without any further protocol write. -/
def execute_task (prepareAcquired : Bool) (processParams : Except String Unit)
    (mqAcquired : Bool) (runResult : Except String Unit) : List TaskEvent :=
  task_status "WAITING" ++
  (if ¬prepareAcquired then task_error "Timeout. No resources available."
   else
    task_status "PREPARING FILES" ++
    (match processParams with
     | .error e => task_error ("Error while preparing files: " ++ e)
     | .ok () =>
       task_status "WAITING" ++
       (if ¬mqAcquired then task_error "Timeout. No resources available."
        else
          task_status "RUNNING" ++
          (match runResult with
           | .error _ => task_error "Error running MaxQuant."
           | .ok () => []))))

/-- The last `STATUS` label written in a trace. -/
def finalStatus (tr : List TaskEvent) : Option String :=
  (tr.filterMap (fun e =>
    match e with
    | .statusWrite s => some s
    | _ => none)).getLast?

/-- Whether a `SUCCESS` file write occurs in a trace. -/
def successWritten (tr : List TaskEvent) : Bool :=
  tr.any (fun e =>
    match e with
    | .successWrite _ => true
    | _ => false)

/-- C2 (code bug): on engine exit zero the worker never writes the
`SUCCESS` file and the final `STATUS` stays `RUNNING` — `_execute_task`
returns after `_run_maxquant` without calling `task.success()` — and on a
nonzero exit the task does transition to `FAILED`, but with the fixed
message "Error running MaxQuant." that does not contain the return
code. -/
theorem execute_task_exit_behaviour :
    successWritten (execute_task true (.ok ()) true (run_maxquant_outcome 0)) = false ∧
    finalStatus (execute_task true (.ok ()) true (run_maxquant_outcome 0)) =
      some "RUNNING" ∧
    execute_task true (.ok ()) true (run_maxquant_outcome 1) =
      [.statusWrite "WAITING", .statusWrite "PREPARING FILES",
       .statusWrite "WAITING", .statusWrite "RUNNING",
       .failedWrite "Error running MaxQuant.", .statusWrite "FAILED"] := by
  refine ⟨rfl, rfl, rfl⟩

/-- C3 (code bug): the deadline check of the engine polling loop can never
fire, whatever engine timeout was configured and however much time has
elapsed, because `MQJob.__init__` overwrites `self.mq_timeout` with
`float("inf")`; in particular a job configured with a finite timeout of 2
seconds still has an infinite stored timeout after 10 elapsed seconds. -/
theorem mq_timeout_never_fires :
    (∀ (semT : ℚ) (configured : PyTimeout) (elapsed : ℚ),
      mqTimeoutExceeded (MQJob_init semT configured).mq_timeout elapsed = false) ∧
    (MQJob_init 200 (.finite 2)).mq_timeout = .inf ∧
    mqTimeoutExceeded (MQJob_init 200 (.finite 2)).mq_timeout 10 = false := by
  exact ⟨fun _ _ _ => rfl, rfl, rfl⟩

/-! ## Discovery (`fscall.listen`) -/

/-- What one scan of the listen directory sees of one subdirectory entry:
its name, whether it is a directory, and whether it contains the `START`
and `STARTED` sentinel files. -/
structure DirEntry where
  name : String
  isDir : Bool
  hasSTART : Bool
  hasSTARTED : Bool

/-- Modelled from the Python `re` module: for a pattern without regex
metacharacters, `re.fullmatch(p, s)` succeeds exactly when the pattern
equals the string; in particular the empty pattern matches only the empty
string. -/
def re_fullmatch_literal (p s : String) : Bool := p == s

/-- The pattern test of the scan loop (src/mqrun/fscall.py:31):
`task_re and not re.fullmatch(task_re, dir.name)`.  An unset pattern
(`None`) and the empty pattern string are both falsy in Python, so neither
makes the test skip anything. -/
def re_skip (fullmatch : String → String → Bool) (task_re : Option String)
    (name : String) : Bool :=
  match task_re with
  | none => false
  | some p => (p != "") && !(fullmatch p name)

/-- Embedding of one iteration of the `fscall.listen` scan loop
(src/mqrun/fscall.py:27-48), parameterised by the `re.fullmatch` test:
the candidates are the directory entries; an entry is skipped by the
pattern test, when it has no `START` file, or when `STARTED` already
exists (the create-exclusive claim fails); otherwise its name is
admitted. -/
def scan_admitted (fullmatch : String → String → Bool) (task_re : Option String)
    (dirs : List DirEntry) : List String :=
  (dirs.filter (fun d => d.isDir)).filterMap (fun d =>
    if re_skip fullmatch task_re d.name then none
    else if d.hasSTART then
      if d.hasSTARTED then none else some d.name
    else none)

/-- The names admitted over a sequence of scans, each seeing its own
directory state. -/
def scans_admitted (fullmatch : String → String → Bool) (task_re : Option String)
    (states : List (List DirEntry)) : List String :=
  (states.map (scan_admitted fullmatch task_re)).flatten

/-- Counterexample to C9 as stated: with the configured pattern set to the
empty string, a directory named `x` carrying `START` is admitted although
`re.fullmatch("", "x")` does not match — the source guards the pattern
test with the truthiness of `task_re`, so an empty pattern disables the
filter instead of rejecting every non-empty name. -/
theorem scan_admitted_empty_pattern :
    scan_admitted re_fullmatch_literal (some "")
      [⟨"x", true, true, false⟩] = ["x"] ∧
    re_fullmatch_literal "" "x" = false := ⟨rfl, rfl⟩

/-- C9 (amended): the discovery loop admits a subdirectory only if it is a
directory, contains `START`, has no `STARTED` yet, and — when a *nonempty*
`task_re` pattern is configured — its name fully matches the pattern (an
empty pattern string is falsy in Python and disables the filter); and a
directory that never contains `START` is admitted by no scan, however many
scans elapse. -/
theorem scan_admitted_characterization (fullmatch : String → String → Bool)
    (task_re : Option String) (n : String) :
    (∀ dirs : List DirEntry, n ∈ scan_admitted fullmatch task_re dirs →
      ∃ d ∈ dirs, d.name = n ∧ d.isDir = true ∧ d.hasSTART = true ∧
        d.hasSTARTED = false ∧
        (∀ p, task_re = some p → p ≠ "" → fullmatch p n = true)) ∧
    (∀ states : List (List DirEntry),
      (∀ s ∈ states, ∀ d ∈ s, d.name = n → d.hasSTART = false) →
      n ∉ scans_admitted fullmatch task_re states) := by
  constructor
  · intro dirs hn
    unfold scan_admitted at hn
    obtain ⟨d, hd, hf⟩ := List.mem_filterMap.mp hn
    obtain ⟨hdd, hdir⟩ := List.mem_filter.mp hd
    refine ⟨d, hdd, ?_⟩
    by_cases hskip : re_skip fullmatch task_re d.name = true
    · rw [if_pos hskip] at hf; cases hf
    · rw [if_neg hskip] at hf
      by_cases hs : d.hasSTART = true
      · rw [if_pos hs] at hf
        by_cases hst : d.hasSTARTED = true
        · rw [if_pos hst] at hf; cases hf
        · rw [if_neg hst] at hf
          cases hf
          refine ⟨rfl, hdir, hs, Bool.not_eq_true _ ▸ hst, ?_⟩
          intro p hp hpne
          subst hp
          unfold re_skip at hskip
          simp only [Bool.and_eq_true, bne_iff_ne, ne_eq, Bool.not_eq_true,
            not_and] at hskip
          simpa using hskip hpne
      · rw [if_neg hs] at hf; cases hf
  · intro states hno hmem
    unfold scans_admitted at hmem
    obtain ⟨l, hl, hnl⟩ := List.mem_flatten.mp hmem
    obtain ⟨s, hs, rfl⟩ := List.mem_map.mp hl
    unfold scan_admitted at hnl
    obtain ⟨d, hd, hf⟩ := List.mem_filterMap.mp hnl
    obtain ⟨hdd, _⟩ := List.mem_filter.mp hd
    by_cases hskip : re_skip fullmatch task_re d.name = true
    · rw [if_pos hskip] at hf; cases hf
    · rw [if_neg hskip] at hf
      by_cases hstart : d.hasSTART = true
      · rw [if_pos hstart] at hf
        by_cases hst : d.hasSTARTED = true
        · rw [if_pos hst] at hf; cases hf
        · rw [if_neg hst] at hf
          cases hf
          exact absurd hstart (by simp [hno s hs d hdd rfl])
      · rw [if_neg hstart] at hf; cases hf

/-- Witness for C9: a matching directory with `START` is admitted with all
the listed properties, and a directory without `START` is admitted by no
scan of a three-scan trace. -/
theorem scan_admitted_characterization_witness :
    (∃ d ∈ [(⟨"task1", true, true, false⟩ : DirEntry)], d.name = "task1" ∧
      d.isDir = true ∧ d.hasSTART = true ∧ d.hasSTARTED = false ∧
      (∀ p, (some "task1" : Option String) = some p → p ≠ "" →
        re_fullmatch_literal p "task1" = true)) ∧
    "nostart" ∉ scans_admitted re_fullmatch_literal none
      [[⟨"nostart", true, false, false⟩], [⟨"nostart", true, false, false⟩],
       [⟨"nostart", true, false, true⟩]] := by
  constructor
  · exact (scan_admitted_characterization re_fullmatch_literal (some "task1")
      "task1").1 [⟨"task1", true, true, false⟩] (by decide)
  · exact (scan_admitted_characterization re_fullmatch_literal none "nostart").2
      [[⟨"nostart", true, false, false⟩], [⟨"nostart", true, false, false⟩],
       [⟨"nostart", true, false, true⟩]] (by decide)

/-! ## Input bucketing (`mqdaemon.bucket_files`) -/

/-- Model of `pathlib.Path(s).name` for the POSIX paths the daemon serves:
the last nonempty component. -/
def pathName (s : String) : String :=
  ((pySplitChar '/' s).filter (fun p => p ≠ "")).getLastD ""

/-- Model of `pathlib.Path(s).suffix`. -/
def pathSuffix (s : String) : String := pathSuffixOfName (pathName s)

/-- Model of `pathlib.Path(s).stem`. -/
def pathStem (s : String) : String := pathStemOfName (pathName s)

/-- The data-file test of `bucket_files`
(src/mqrun/mqdaemon.py:109): `file.suffix.lower() in ['.raw', '.fasta']`. -/
def isDataFile (f : String) : Bool :=
  let s := pyLower (pathSuffix f)
  s == ".raw" || s == ".fasta"

/-- The parameter-file test of `bucket_files`
(src/mqrun/mqdaemon.py:114): `file.suffix.lower() in ['.yaml', '.json']`. -/
def isParamFile (f : String) : Bool :=
  let s := pyLower (pathSuffix f)
  s == ".yaml" || s == ".json"

/-- The file loop of `bucket_files` (src/mqrun/mqdaemon.py:108-117):
data files are keyed by stem with a uniqueness check, parameter files are
keyed by stem *without* one (`param_files[file.stem] = str(file)` silently
replaces), anything else is only warned about. -/
def bucket_files_loop : List String → List (String × String) →
    List (String × String) → Except String (List (String × String) × List (String × String))
  | [], datafiles, param_files => .ok (datafiles, param_files)
  | f :: rest, datafiles, param_files =>
    if isDataFile f then
      if datafiles.any (fun p => p.1 == pathStem f) then
        .error "File name not unique"
      else bucket_files_loop rest (datafiles ++ [(pathStem f, f)]) param_files
    else if isParamFile f then
      bucket_files_loop rest datafiles (dsetS param_files (pathStem f) f)
    else bucket_files_loop rest datafiles param_files

/-- Embedding of `mqdaemon.bucket_files` (src/mqrun/mqdaemon.py:103-126):
the file loop, then the parameter-file count checks (which count *stems*,
since the dict is keyed by stem), then the first dict value as the
parameter file. -/
def bucket_files (infiles : List String) :
    Except String (String × List (String × String)) := do
  let (datafiles, param_files) ← bucket_files_loop infiles [] []
  if param_files.length > 1 then .error "Too many parameter files"
  else
    match param_files with
    | [] => .error "No parameter file"
    | p :: _ => .ok (p.2, datafiles)

/-- The stems of the data files among the inputs, in order. -/
def dataStems (fs : List String) : List String :=
  (fs.filter (fun f => isDataFile f)).map pathStem

/-- The stem-keyed data map `bucket_files` builds on success. -/
def dataEntries (fs : List String) : List (String × String) :=
  (fs.filter (fun f => isDataFile f)).map (fun f => (pathStem f, f))

/-- Whether the file loop hits a duplicate data stem, scanning with the
stems already `seen`. -/
def hasDupData (seen : List String) : List String → Bool
  | [] => false
  | f :: rest =>
    if isDataFile f then
      seen.any (fun x => x == pathStem f) || hasDupData (seen ++ [pathStem f]) rest
    else hasDupData seen rest

/-- The parameter dict the file loop accumulates. -/
def paramFold (pa : List (String × String)) : List String → List (String × String)
  | [] => pa
  | f :: rest =>
    if isDataFile f then paramFold pa rest
    else if isParamFile f then paramFold (dsetS pa (pathStem f) f) rest
    else paramFold pa rest

/-- Fold a stem list into an accumulator keeping first occurrences. -/
def distinctAdd (acc : List String) : List String → List String
  | [] => acc
  | s :: rest =>
    if acc.any (fun x => x == s) then distinctAdd acc rest
    else distinctAdd (acc ++ [s]) rest

/-- The distinct stems of the parameter files among the inputs. -/
def distinctParamStems (fs : List String) : List String :=
  distinctAdd [] ((fs.filter (fun f => isParamFile f)).map pathStem)

/-- A data suffix is never a parameter suffix. -/
theorem data_param_disjoint (f : String) (h : isDataFile f = true) :
    isParamFile f = false := by
  unfold isDataFile at h
  unfold isParamFile
  simp only [Bool.or_eq_true, beq_iff_eq] at h
  rcases h with h | h <;> simp [h]

/-- Closed form of the file loop: it fails exactly on a duplicate data
stem and otherwise returns the accumulated data map and parameter dict. -/
theorem bucket_files_loop_spec :
    ∀ (fs : List String) (da pa : List (String × String)),
      bucket_files_loop fs da pa =
        if hasDupData (da.map Prod.fst) fs then .error "File name not unique"
        else .ok (da ++ dataEntries fs, paramFold pa fs) := by
  intro fs
  induction fs with
  | nil =>
    intro da pa
    simp [bucket_files_loop, hasDupData, dataEntries, paramFold]
  | cons f rest ih =>
    intro da pa
    unfold bucket_files_loop hasDupData dataEntries paramFold
    by_cases hdata : isDataFile f = true
    · rw [if_pos hdata, if_pos hdata, if_pos hdata]
      have hmap : (da.map Prod.fst).any (fun x => x == pathStem f) =
          da.any (fun p => p.1 == pathStem f) := by
        induction da with
        | nil => rfl
        | cons a l ihl => simp [List.any_cons, ihl]
      by_cases hdup : da.any (fun p => p.1 == pathStem f) = true
      · rw [if_pos hdup, hmap, hdup]
        simp [List.filter_cons, hdata]
      · rw [if_neg hdup, hmap]
        simp only [Bool.not_eq_true] at hdup
        rw [hdup]
        simp only [Bool.false_or]
        rw [ih (da ++ [(pathStem f, f)]) pa]
        have : (da ++ [(pathStem f, f)]).map Prod.fst =
            da.map Prod.fst ++ [pathStem f] := by simp
        rw [this]
        by_cases hrec : hasDupData (da.map Prod.fst ++ [pathStem f]) rest = true
        · rw [if_pos hrec, if_pos hrec]
        · rw [if_neg hrec, if_neg hrec]
          have hp : isParamFile f = false := data_param_disjoint f hdata
          simp [dataEntries, paramFold, List.filter_cons, hdata, hp,
            List.append_assoc]
    · rw [if_neg hdata, if_neg hdata, if_neg hdata]
      simp only [Bool.not_eq_true] at hdata
      by_cases hpar : isParamFile f = true
      · rw [if_pos hpar]
        rw [ih da (dsetS pa (pathStem f) f)]
        simp [dataEntries, List.filter_cons, hdata, hpar]
      · rw [if_neg hpar]
        rw [ih da pa]
        simp only [Bool.not_eq_true] at hpar
        simp [dataEntries, List.filter_cons, hdata, hpar]

/-- Key search through the first components. -/
theorem any_map_fst (pa : List (String × String)) (s : String) :
    (pa.map Prod.fst).any (fun x => x == s) = pa.any (fun p => p.1 == s) := by
  induction pa with
  | nil => rfl
  | cons a l ihl => simp [List.any_cons, ihl]

/-- `dsetS` keeps the key list, appending the key only when it is new. -/
theorem dsetS_keys (pa : List (String × String)) (k v : String) :
    (dsetS pa k v).map Prod.fst =
      if pa.any (fun p => p.1 == k) then pa.map Prod.fst
      else pa.map Prod.fst ++ [k] := by
  unfold dsetS
  by_cases h : pa.any (fun p => p.1 == k) = true
  · rw [if_pos h, if_pos h, List.map_map]
    apply List.map_congr_left
    intro p _
    by_cases hp : p.1 == k
    · simp only [Function.comp]
      rw [if_pos hp]
      exact (beq_iff_eq.mp hp).symm
    · simp only [Function.comp]
      rw [if_neg hp]
  · rw [if_neg h, if_neg h]
    simp

/-- Every entry of `dsetS pa k v` carries `v` or was already in `pa`. -/
theorem dsetS_mem (pa : List (String × String)) (k v : String) :
    ∀ p ∈ dsetS pa k v, p.2 = v ∨ p ∈ pa := by
  intro p hp
  unfold dsetS at hp
  by_cases h : pa.any (fun q => q.1 == k) = true
  · rw [if_pos h] at hp
    obtain ⟨q, hq, hqe⟩ := List.mem_map.mp hp
    by_cases hqk : q.1 == k
    · rw [if_pos hqk] at hqe
      left
      rw [← hqe]
    · rw [if_neg hqk] at hqe
      right
      rw [← hqe]
      exact hq
  · rw [if_neg h] at hp
    rcases List.mem_append.mp hp with hl | hr
    · right; exact hl
    · left
      rw [List.mem_singleton.mp hr]

/-- Membership form of the Boolean key search. -/
theorem any_beq_mem (l : List String) (s : String) :
    l.any (fun x => x == s) = true ↔ s ∈ l := by
  constructor
  · intro h
    obtain ⟨x, hx, hxe⟩ := List.any_eq_true.mp h
    rw [beq_iff_eq] at hxe
    rw [← hxe]
    exact hx
  · intro h
    exact List.any_eq_true.mpr ⟨s, h, beq_self_eq_true s⟩

/-- The duplicate scan fails exactly when the data stems collide among
themselves or with the stems already seen. -/
theorem hasDupData_iff (fs : List String) :
    ∀ seen : List String,
      hasDupData seen fs = false ↔
        (dataStems fs).Nodup ∧ ∀ s ∈ dataStems fs, s ∉ seen := by
  induction fs with
  | nil => intro seen; simp [hasDupData, dataStems]
  | cons f rest ih =>
    intro seen
    by_cases hdata : isDataFile f = true
    · unfold hasDupData
      rw [if_pos hdata]
      have hst : dataStems (f :: rest) = pathStem f :: dataStems rest := by
        simp [dataStems, List.filter_cons, hdata]
      rw [hst]
      simp only [Bool.or_eq_false_iff, ih (seen ++ [pathStem f]),
        List.nodup_cons, List.mem_cons]
      constructor
      · rintro ⟨hs, hnd, hmem⟩
        have hseen : pathStem f ∉ seen := by
          intro hc
          rw [(any_beq_mem seen (pathStem f)).mpr hc] at hs
          cases hs
        refine ⟨⟨fun hc => ?_, hnd⟩, ?_⟩
        · have := hmem _ hc
          simp at this
        · intro s hs'
          rcases hs' with rfl | hs'
          · exact hseen
          · intro hc
            exact (hmem s hs') (by simp [hc])
      · rintro ⟨⟨hnotin, hnd⟩, hmem⟩
        have hseen : pathStem f ∉ seen := hmem _ (Or.inl rfl)
        refine ⟨?_, hnd, ?_⟩
        · rw [Bool.eq_false_iff]
          intro hc
          exact hseen ((any_beq_mem _ _).mp hc)
        · intro s hs'
          simp only [List.mem_append, List.mem_singleton]
          rintro (hc | rfl)
          · exact (hmem s (Or.inr hs')) hc
          · exact hnotin hs'
    · unfold hasDupData
      rw [if_neg hdata]
      have hst : dataStems (f :: rest) = dataStems rest := by
        simp only [Bool.not_eq_true] at hdata
        simp [dataStems, List.filter_cons, hdata]
      rw [hst]
      exact ih seen

/-- One step of the distinct-stem fold. -/
theorem distinctAdd_cons (acc : List String) (s : String) (rest : List String) :
    distinctAdd acc (s :: rest) =
      if acc.any (fun x => x == s) then distinctAdd acc rest
      else distinctAdd (acc ++ [s]) rest := rfl

/-- The keys of the accumulated parameter dict are the distinct parameter
stems (in first-appearance order). -/
theorem paramFold_keys (fs : List String) :
    ∀ pa : List (String × String),
      (paramFold pa fs).map Prod.fst =
        distinctAdd (pa.map Prod.fst) ((fs.filter (fun f => isParamFile f)).map pathStem) := by
  induction fs with
  | nil => intro pa; simp [paramFold, distinctAdd]
  | cons f rest ih =>
    intro pa
    unfold paramFold
    by_cases hdata : isDataFile f = true
    · rw [if_pos hdata]
      have hp : isParamFile f = false := data_param_disjoint f hdata
      rw [ih pa]
      simp [List.filter_cons, hp]
    · rw [if_neg hdata]
      by_cases hpar : isParamFile f = true
      · rw [if_pos hpar, ih (dsetS pa (pathStem f) f)]
        have hfil : List.filter (fun f => isParamFile f) (f :: rest) =
            f :: List.filter (fun f => isParamFile f) rest := by
          simp [List.filter_cons, hpar]
        rw [hfil, List.map_cons, distinctAdd_cons, dsetS_keys, any_map_fst]
        by_cases hin : pa.any (fun p => p.1 == pathStem f) = true
        · rw [if_pos hin, if_pos hin]
        · rw [if_neg hin, if_neg hin]
      · rw [if_neg hpar, ih pa]
        simp only [Bool.not_eq_true] at hpar
        simp [List.filter_cons, hpar]

/-- Every value of the accumulated parameter dict is one of the parameter
files scanned. -/
theorem paramFold_values (fs : List String) :
    ∀ (pa : List (String × String)) (Q : String → Prop),
      (∀ p ∈ pa, Q p.2) → (∀ f ∈ fs, isParamFile f = true → Q f) →
      ∀ p ∈ paramFold pa fs, Q p.2 := by
  induction fs with
  | nil =>
    intro pa Q hpa _ p hp
    exact hpa p hp
  | cons f rest ih =>
    intro pa Q hpa hfs p hp
    unfold paramFold at hp
    by_cases hdata : isDataFile f = true
    · rw [if_pos hdata] at hp
      exact ih pa Q hpa (fun g hg => hfs g (List.mem_cons_of_mem f hg)) p hp
    · rw [if_neg hdata] at hp
      by_cases hpar : isParamFile f = true
      · rw [if_pos hpar] at hp
        refine ih (dsetS pa (pathStem f) f) Q ?_
          (fun g hg => hfs g (List.mem_cons_of_mem f hg)) p hp
        intro q hq
        rcases dsetS_mem pa (pathStem f) f q hq with hv | hold
        · rw [hv]
          exact hfs f (List.mem_cons_self f rest) hpar
        · exact hpa q hold
      · rw [if_neg hpar] at hp
        exact ih pa Q hpa (fun g hg => hfs g (List.mem_cons_of_mem f hg)) p hp

/-- Counterexample to C8 as stated: the input set `{a.yaml, a.json}`
contains two parameter files, yet bucketing succeeds — the parameter dict
is keyed by stem, so the second file replaces the first and the
too-many-parameter-files check, which counts stems, sees one entry. -/
theorem bucket_files_shared_stem_not_rejected :
    bucket_files ["a.yaml", "a.json"] = .ok ("a.json", []) := by rfl

/-- C8 (amended): bucketing separates data files (`.raw`/`.fasta`,
case-insensitive) from parameter files (`.yaml`/`.json`, case-insensitive);
it succeeds exactly when the data-file stems are pairwise distinct and the
parameter files span exactly one distinct stem (parameter files sharing a
stem collapse to a single entry, the later file winning, so they do not
trigger the too-many check); on success it returns one of the parameter
files and the stem-keyed map of all data files. -/
theorem bucket_files_separation (infiles : List String) :
    (exceptIsErr (bucket_files infiles) = false ↔
      (dataStems infiles).Nodup ∧ (distinctParamStems infiles).length = 1) ∧
    (∀ pf dfs, bucket_files infiles = .ok (pf, dfs) →
      dfs = dataEntries infiles ∧ pf ∈ infiles ∧ isParamFile pf = true) := by
  have hloop := bucket_files_loop_spec infiles [] []
  have hlen : (paramFold [] infiles).length = (distinctParamStems infiles).length := by
    have h := congrArg List.length (paramFold_keys infiles [])
    simpa [distinctParamStems] using h
  unfold bucket_files
  rw [hloop]
  simp only [List.map_nil, List.nil_append]
  by_cases hdup : hasDupData [] infiles = true
  · rw [if_pos hdup, except_bind_err]
    constructor
    · constructor
      · intro h; cases h
      · rintro ⟨hnd, -⟩
        have hfalse := (hasDupData_iff infiles []).mpr ⟨hnd, by simp⟩
        rw [hfalse] at hdup
        cases hdup
    · intro pf dfs h; cases h
  · rw [if_neg hdup, except_bind_ok]
    simp only [Bool.not_eq_true] at hdup
    have hnd : (dataStems infiles).Nodup :=
      ((hasDupData_iff infiles []).mp hdup).1
    dsimp only
    by_cases hgt : (paramFold [] infiles).length > 1
    · rw [if_pos hgt]
      constructor
      · constructor
        · intro h; cases h
        · rintro ⟨-, hone⟩
          rw [← hlen] at hone
          omega
      · intro pf dfs h; cases h
    · rw [if_neg hgt]
      cases hP : paramFold [] infiles with
      | nil =>
        constructor
        · constructor
          · intro h; cases h
          · rintro ⟨-, hone⟩
            rw [← hlen, hP] at hone
            cases hone
        · intro pf dfs h; cases h
      | cons p tail =>
        have hone : (distinctParamStems infiles).length = 1 := by
          rw [← hlen, hP]
          rw [hP] at hgt
          simp only [List.length_cons] at hgt ⊢
          omega
        constructor
        · exact ⟨fun _ => ⟨hnd, hone⟩, fun _ => rfl⟩
        · intro pf dfs h
          injection h with h2
          injection h2 with hpf hdfs
          have hmem : p ∈ paramFold [] infiles := by
            rw [hP]; exact List.mem_cons_self p tail
          have hq := paramFold_values infiles []
            (fun x => x ∈ infiles ∧ isParamFile x = true)
            (fun q hq => absurd hq (List.not_mem_nil q))
            (fun f hf hpar => ⟨hf, hpar⟩) p hmem
          exact ⟨hdfs.symm, hpf ▸ hq.1, hpf ▸ hq.2⟩

/-- Witness for C8: a well-formed input set — one raw file, one parameter
file, one ignored file — bucketed through `bucket_files_separation`. -/
theorem bucket_files_separation_witness :
    exceptIsErr (bucket_files ["input1.raw", "params.yaml", "readme.txt"]) = false ∧
    [("input1", "input1.raw")] =
      dataEntries ["input1.raw", "params.yaml", "readme.txt"] ∧
    "params.yaml" ∈ ["input1.raw", "params.yaml", "readme.txt"] ∧
    isParamFile "params.yaml" = true := by
  have h := bucket_files_separation ["input1.raw", "params.yaml", "readme.txt"]
  have h2 := h.2 "params.yaml" [("input1", "input1.raw")] (by rfl)
  exact ⟨h.1.mpr ⟨by decide, by decide⟩, h2.1, h2.2.1, h2.2.2⟩

/-- Witness for C3: the unreachability of the deadline check evaluated at a
finite configured timeout of 2 with 10 elapsed seconds. -/
theorem mq_timeout_never_fires_witness :
    mqTimeoutExceeded (MQJob_init 200 (.finite 2)).mq_timeout 10 = false :=
  mq_timeout_never_fires.1 200 (.finite 2) 10

/-- Witness for C6: the universally quantified decoder rules evaluated at
concrete texts. -/
theorem decode_rules_witness :
    decode (some "x ") "string" = .ok (some (.vStr "x")) ∧
    decode none "integer" = .ok none ∧
    exceptIsErr (decode (some " true ") "boolean") = false := by
  have h := decode_rules
  refine ⟨h.2.1 "x ", h.2.2.2.2.2.2.2 "integer", ?_⟩
  exact (h.2.2.2.2.2.1 " true ").mpr (Or.inl (by rfl))
